import Mathlib

/-!
# Bank ATM backend: ledger, credential pool, access queue, transaction engine

A shallow embedding of `assignment.cpp`.

* A C++ `string` is a Lean `String`, a `char` is a `Char`.
* A `double` is a value of `Double` below: IEEE 754 binary64 with NaN, the infinities, signed
  zeros and subnormals.  `+` and `-` round to nearest, ties to even, as the hardware does in
  the default rounding mode; `<` and `<=` are false on NaN.
* An object with mutable state is a value; a member function takes the state and returns
  the outcome together with the state it leaves behind, also when it throws.
* The pointer `findCustomer` returns is the index of the array slot it addresses.
* Text written to `cout` is not modelled, except that `withdraw` and `transfer` return
  whether the "Service charge ... applied" line was printed.
-/

set_option exponentiation.threshold 5000
set_option maxRecDepth 100000

namespace Bank

/-! ## The type `double` -/

/-- A value of the C++ type `double` (IEEE 754 binary64): not-a-number, an infinity, or a
finite value given by its sign and its magnitude counted in units of 2^-1074, the spacing of
the smallest doubles.  Every finite double is a whole number of such units: the doubles are
the magnitudes below `Double.huge` that `roundMag` leaves as they are, and the operations
below return no others. -/
inductive Double where
  | nan
  | inf (negative : Bool)
  | finite (negative : Bool) (mag : Nat)
  deriving DecidableEq, Repr

/-- The number of units in 1. -/
def Double.scale : Nat := 2 ^ 1074

/-- The magnitude 2^1024 in units, the first one too large for a finite double. -/
def Double.huge : Nat := 2 ^ 2098

/-- The number of binary digits of `k`, by halving at most `fuel` times. -/
def bitLenAux : Nat → Nat → Nat
  | 0, _ => 0
  | fuel + 1, k => if k = 0 then 0 else bitLenAux fuel (k / 2) + 1

/-- The number of binary digits of `k`. -/
def bitLen (k : Nat) : Nat := bitLenAux k k

/-- Rounding of a magnitude to 53 significant binary digits, to nearest, ties to the even
significand: the rounding of every binary64 operation in the default rounding mode. -/
def roundMag (k : Nat) : Nat :=
  if k < 2 ^ 53 then k
  else
    let shift := bitLen k - 53
    let q := k / 2 ^ shift
    let r := k % 2 ^ shift
    let half := 2 ^ (shift - 1)
    (if half < r ∨ (r = half ∧ q % 2 = 1) then q + 1 else q) * 2 ^ shift

/-- The double nearest to the exact value of sign `negative` and magnitude `k`: an infinity
when the rounded magnitude reaches 2^1024. -/
def Double.ofMag (negative : Bool) (k : Nat) : Double :=
  if Double.huge ≤ roundMag k then .inf negative else .finite negative (roundMag k)

/-- Unary minus. -/
def Double.neg : Double → Double
  | .nan => .nan
  | .inf negative => .inf (!negative)
  | .finite negative k => .finite (!negative) k

/-- The operator `+` of `double`. -/
def Double.add : Double → Double → Double
  | .nan, _ => .nan
  | _, .nan => .nan
  | .inf a, .inf b => if a = b then .inf a else .nan
  | .inf a, .finite _ _ => .inf a
  | .finite _ _, .inf b => .inf b
  | .finite a x, .finite b y =>
    if a = b then Double.ofMag a (x + y)
    else if x = y then .finite false 0
    else if y < x then Double.ofMag a (x - y)
    else Double.ofMag b (y - x)

/-- The operator `-` of `double`. -/
def Double.sub (x y : Double) : Double := x.add y.neg

/-- The place of a double other than NaN in the order: its value in units, with the
infinities beyond every finite double. -/
def Double.key : Double → Int
  | .nan => 0
  | .inf negative => if negative then -(Double.huge : Int) else (Double.huge : Int)
  | .finite negative k => if negative then -(k : Int) else (k : Int)

/-- The operator `<` of `double`: false when either side is NaN. -/
def Double.lt : Double → Double → Bool
  | .nan, _ => false
  | _, .nan => false
  | x, y => decide (x.key < y.key)

/-- The operator `<=` of `double`: false when either side is NaN. -/
def Double.le : Double → Double → Bool
  | .nan, _ => false
  | _, .nan => false
  | x, y => decide (x.key ≤ y.key)

instance : Add Double := ⟨Double.add⟩

instance : Sub Double := ⟨Double.sub⟩

instance : LT Double := ⟨fun x y => Double.lt x y = true⟩

instance : LE Double := ⟨fun x y => Double.le x y = true⟩

instance (x y : Double) : Decidable (x < y) := inferInstanceAs (Decidable (Double.lt x y = true))

instance (x y : Double) : Decidable (x ≤ y) := inferInstanceAs (Decidable (Double.le x y = true))

/-- An integer literal converted to `double`. -/
instance (n : Nat) : OfNat Double n := ⟨Double.ofMag false (n * Double.scale)⟩

instance : Inhabited Double := ⟨.finite false 0⟩

/-- The exact value of a finite double; 0 for NaN and the infinities, which have none. -/
def Double.toRat : Double → ℚ
  | .nan => 0
  | .inf _ => 0
  | .finite negative k =>
    if negative then -((k : ℚ) / (Double.scale : ℚ)) else (k : ℚ) / (Double.scale : ℚ)

/-- Equality of outcomes is decidable. -/
instance {ε α : Type} [DecidableEq ε] [DecidableEq α] : DecidableEq (Except ε α)
  | .ok a, .ok b =>
    if h : a = b then isTrue (congrArg Except.ok h) else isFalse (fun h' => h (Except.ok.inj h'))
  | .error a, .error b =>
    if h : a = b then isTrue (congrArg Except.error h)
    else isFalse (fun h' => h (Except.error.inj h'))
  | .ok _, .error _ => isFalse (fun h => Except.noConfusion h)
  | .error _, .ok _ => isFalse (fun h => Except.noConfusion h)

/-! ## Data model -/

/-- The three exception classes the program declares, each with its message. -/
inductive BankException where
  | ValidationException (message : String)
  | InsufficientFundsException (message : String)
  | DatabaseException (message : String)
  deriving DecidableEq, Repr

/-- The `Customer` structure. -/
structure Customer where
  customerId : String
  password : String
  name : String
  email : String
  address : String
  phone : String
  savingsBalance : Double
  currentBalance : Double
  isFirstLogin : Bool
  deriving DecidableEq, Inhabited

/-- Capacity of the customer array. -/
def MAX_CUSTOMERS : Nat := 100

/-- The `CustomerDatabase` object: `customers` lists the slots `0 .. customerCount - 1`
of the array, in slot order. -/
structure CustomerDatabase where
  customers : List Customer
  deriving DecidableEq

/-- The `customerCount` member. -/
def CustomerDatabase.customerCount (db : CustomerDatabase) : Nat := db.customers.length

/-- The freshly constructed database (`customerCount(0)`). -/
def CustomerDatabase.empty : CustomerDatabase := ⟨[]⟩

/-- The loop of `findCustomer` over the used slots: the first slot whose `customerId`
equals the argument. -/
def findSlot : List Customer → String → Option Nat
  | [], _ => none
  | c :: cs, customerId =>
    if c.customerId = customerId then some 0 else (findSlot cs customerId).map (· + 1)

/-- The member `findCustomer`: the slot the returned pointer addresses, `none` for `nullptr`. -/
def CustomerDatabase.findCustomer (db : CustomerDatabase) (customerId : String) : Option Nat :=
  findSlot db.customers customerId

/-- Reading through a pointer to slot `i`. -/
def CustomerDatabase.slot (db : CustomerDatabase) (i : Nat) : Customer :=
  db.customers.getD i default

/-- Writing through a pointer to slot `i`: the record there is replaced by `f` of it. -/
def updateAt : List Customer → Nat → (Customer → Customer) → List Customer
  | [], _, _ => []
  | c :: cs, 0, f => f c :: cs
  | c :: cs, i + 1, f => c :: updateAt cs i f

/-- The database after a write through a pointer to slot `i`. -/
def CustomerDatabase.write (db : CustomerDatabase) (i : Nat) (f : Customer → Customer) :
    CustomerDatabase :=
  ⟨updateAt db.customers i f⟩

/-- The member `addCustomer`. -/
def CustomerDatabase.addCustomer (db : CustomerDatabase) (customer : Customer) :
    Except BankException Unit × CustomerDatabase :=
  if db.customerCount ≥ MAX_CUSTOMERS then
    (.error (.DatabaseException "Maximum customer limit reached"), db)
  else if (db.findCustomer customer.customerId).isSome then
    (.error (.DatabaseException "Customer ID already exists"), db)
  else
    (.ok (), ⟨db.customers ++ [customer]⟩)

/-- The member `validateCredentials`. -/
def CustomerDatabase.validateCredentials (db : CustomerDatabase) (customerId password : String) :
    Bool :=
  match db.findCustomer customerId with
  | none => false
  | some i => decide ((db.slot i).password = password)

/-- The member `changePassword`. -/
def CustomerDatabase.changePassword (db : CustomerDatabase) (customerId newPassword : String) :
    Bool × CustomerDatabase :=
  match db.findCustomer customerId with
  | some i =>
    (true, (db.write i (fun c => { c with password := newPassword })).write i
      (fun c => { c with isFirstLogin := false }))
  | none => (false, db)

/-! ## ATM -/

/-- Minimum balance of a savings account. -/
def MIN_SAVINGS_BALANCE : Double := 1000

/-- Minimum balance of a current account. -/
def MIN_CURRENT_BALANCE : Double := 5000

/-- Service charge on a savings account that falls below its minimum. -/
def SAVINGS_PENALTY : Double := 50

/-- Service charge on a current account that falls below its minimum. -/
def CURRENT_PENALTY : Double := 250

/-- Reading the reference `(accountType == 'S') ? c.savingsBalance : c.currentBalance`. -/
def readBalance (accountType : Char) (c : Customer) : Double :=
  if accountType = 'S' then c.savingsBalance else c.currentBalance

/-- Writing `v` through that reference. -/
def writeBalance (accountType : Char) (v : Double) (c : Customer) : Customer :=
  if accountType = 'S' then { c with savingsBalance := v } else { c with currentBalance := v }

/-- The member `ATM::withdraw` on the database the ATM refers to.  The result is the
exception thrown, or whether the service charge was applied, with the database afterwards. -/
def withdraw (db : CustomerDatabase) (customerId : String) (accountType : Char) (amount : Double) :
    Except BankException Bool × CustomerDatabase :=
  if amount ≤ 0 then
    (.error (.ValidationException "Invalid withdrawal amount"), db)
  else
    match db.findCustomer customerId with
    | none => (.error (.ValidationException "Customer not found"), db)
    | some i =>
      let balance := readBalance accountType (db.slot i)
      let minBalance := if accountType = 'S' then MIN_SAVINGS_BALANCE else MIN_CURRENT_BALANCE
      let penalty := if accountType = 'S' then SAVINGS_PENALTY else CURRENT_PENALTY
      if balance - amount < minBalance then
        if balance - amount - penalty < 0 then
          (.error (.InsufficientFundsException "Insufficient funds for withdrawal"), db)
        else
          (.ok true, db.write i (writeBalance accountType (balance - (amount + penalty))))
      else
        (.ok false, db.write i (writeBalance accountType (balance - amount)))

/-- The member `ATM::transfer`.  The debit is written first; the credit then reads the
destination balance from the database as the debit left it, so that two references to the
same account behave as in the source. -/
def transfer (db : CustomerDatabase) (fromId toId : String) (fromAccountType toAccountType : Char)
    (amount : Double) : Except BankException Bool × CustomerDatabase :=
  if amount ≤ 0 then
    (.error (.ValidationException "Invalid transfer amount"), db)
  else
    match db.findCustomer fromId, db.findCustomer toId with
    | some i, some j =>
      let fromBalance := readBalance fromAccountType (db.slot i)
      let minBalance :=
        if fromAccountType = 'S' then MIN_SAVINGS_BALANCE else MIN_CURRENT_BALANCE
      let penalty := if fromAccountType = 'S' then SAVINGS_PENALTY else CURRENT_PENALTY
      if fromBalance - amount < minBalance then
        if fromBalance - amount - penalty < 0 then
          (.error (.InsufficientFundsException "Insufficient funds for transfer"), db)
        else
          let db1 := db.write i (writeBalance fromAccountType (fromBalance - (amount + penalty)))
          (.ok true,
            db1.write j
              (writeBalance toAccountType (readBalance toAccountType (db1.slot j) + amount)))
      else
        let db1 := db.write i (writeBalance fromAccountType (fromBalance - amount))
        (.ok false,
          db1.write j
            (writeBalance toAccountType (readBalance toAccountType (db1.slot j) + amount)))
    | _, _ => (.error (.ValidationException "Invalid customer ID(s)"), db)

/-! ## Default credentials -/

/-- The `DefaultCredentials` object: the stack of (customer ID, password) pairs, top first. -/
structure DefaultCredentials where
  credentials : List (String × String)
  deriving DecidableEq

/-- The member call `credentials.push`. -/
def DefaultCredentials.push (s : DefaultCredentials) (c : String × String) : DefaultCredentials :=
  ⟨c :: s.credentials⟩

/-- The constructor: ten pushes onto the empty stack, in the order of the source. -/
def DefaultCredentials.new : DefaultCredentials :=
  ((((((((((DefaultCredentials.mk []).push ("CUST010", "PASS010")).push
    ("CUST009", "PASS009")).push ("CUST008", "PASS008")).push ("CUST007", "PASS007")).push
    ("CUST006", "PASS006")).push ("CUST005", "PASS005")).push ("CUST004", "PASS004")).push
    ("CUST003", "PASS003")).push ("CUST002", "PASS002")).push ("CUST001", "PASS001")

/-- The member `getNextCredential`: the top pair, popped. -/
def DefaultCredentials.getNextCredential (s : DefaultCredentials) :
    Except BankException (String × String) × DefaultCredentials :=
  match s.credentials with
  | [] => (.error (.DatabaseException "No more default credentials available"), s)
  | cred :: rest => (.ok cred, ⟨rest⟩)

/-- The results of `n` consecutive `getNextCredential` calls, first call first, with the
stack they leave. -/
def DefaultCredentials.issue :
    Nat → DefaultCredentials → List (Except BankException (String × String)) × DefaultCredentials
  | 0, s => ([], s)
  | n + 1, s =>
    let r := s.getNextCredential
    let rest := DefaultCredentials.issue n r.2
    (r.1 :: rest.1, rest.2)

/-! ## Access queue -/

/-- The `accessQueue` member of the ATM, front first. -/
structure ATM where
  accessQueue : List String
  deriving DecidableEq

/-- The member `addToQueue`. -/
def ATM.addToQueue (atm : ATM) (customerId : String) : ATM :=
  ⟨atm.accessQueue ++ [customerId]⟩

/-- The member `isNextInQueue`. -/
def ATM.isNextInQueue (atm : ATM) (customerId : String) : Bool :=
  match atm.accessQueue with
  | [] => false
  | front :: _ => decide (front = customerId)

/-- The member `removeFromQueue`. -/
def ATM.removeFromQueue (atm : ATM) : ATM :=
  match atm.accessQueue with
  | [] => atm
  | _ :: rest => ⟨rest⟩

/-! ## Application -/

/-- The `BankApplication` object. -/
structure BankApplication where
  db : CustomerDatabase
  defaultCreds : DefaultCredentials
  atm : ATM
  currentUserId : String
  deriving DecidableEq

/-- The constructor of `BankApplication`. -/
def BankApplication.new : BankApplication :=
  ⟨CustomerDatabase.empty, DefaultCredentials.new, ⟨[]⟩, ""⟩

/-- The field checks of `signUp`, in order: the exception of the first check that fails.
`length()` counts bytes. -/
def signUpFieldCheck (name email address phone : String) : Option BankException :=
  if name.utf8ByteSize < 2 then
    some (.ValidationException "Name must be at least 2 characters long")
  else if !email.data.contains '@' || !email.data.contains '.' then
    some (.ValidationException "Invalid email format")
  else if address.utf8ByteSize < 5 then
    some (.ValidationException "Address must be at least 5 characters long")
  else if phone.utf8ByteSize ≠ 10 || !phone.data.all Char.isDigit then
    some (.ValidationException "Phone number must be exactly 10 digits")
  else none

/-- The member `signUp` on the four strings read from the input.  The result is the
exception caught, or the credentials assigned, with the application afterwards. -/
def BankApplication.signUp (app : BankApplication) (name email address phone : String) :
    Except BankException (String × String) × BankApplication :=
  match signUpFieldCheck name email address phone with
  | some e => (.error e, app)
  | none =>
    match app.defaultCreds.getNextCredential with
    | (.error e, creds) => (.error e, { app with defaultCreds := creds })
    | (.ok defaultCred, creds) =>
      let newCustomer : Customer :=
        { customerId := defaultCred.1, password := defaultCred.2, name := name, email := email,
          address := address, phone := phone, savingsBalance := 10000, currentBalance := 25000,
          isFirstLogin := true }
      match app.db.addCustomer newCustomer with
      | (.error e, db) => (.error e, { app with defaultCreds := creds, db := db })
      | (.ok _, db) => (.ok defaultCred, { app with defaultCreds := creds, db := db })

/-- The credential check and admission of `login`: on valid credentials the ID becomes the
current user and joins the queue. -/
def BankApplication.login (app : BankApplication) (customerId password : String) :
    Bool × BankApplication :=
  if app.db.validateCredentials customerId password then
    (true, { app with currentUserId := customerId, atm := app.atm.addToQueue customerId })
  else (false, app)

/-- The member `logout`. -/
def BankApplication.logout (app : BankApplication) : BankApplication :=
  { app with atm := app.atm.removeFromQueue, currentUserId := "" }

/-- A call on the application: registration, login, logout, and the database and ATM
operations the menu reaches. -/
inductive Call where
  | signUp (name email address phone : String)
  | login (customerId password : String)
  | logout
  | changePassword (customerId newPassword : String)
  | withdraw (customerId : String) (accountType : Char) (amount : Double)
  | transfer (fromId toId : String) (fromAccountType toAccountType : Char) (amount : Double)

/-- The application after one call. -/
def BankApplication.call (app : BankApplication) : Call → BankApplication
  | .signUp name email address phone => (app.signUp name email address phone).2
  | .login customerId password => (app.login customerId password).2
  | .logout => app.logout
  | .changePassword customerId newPassword =>
    { app with db := (app.db.changePassword customerId newPassword).2 }
  | .withdraw customerId accountType amount =>
    { app with db := (withdraw app.db customerId accountType amount).2 }
  | .transfer fromId toId fromAccountType toAccountType amount =>
    { app with db := (transfer app.db fromId toId fromAccountType toAccountType amount).2 }

/-- The application after a sequence of calls, first call first. -/
def BankApplication.run (app : BankApplication) (calls : List Call) : BankApplication :=
  calls.foldl BankApplication.call app

/-- The customer IDs stored in the database, in slot order. -/
def CustomerDatabase.ids (db : CustomerDatabase) : List String :=
  db.customers.map (fun c => c.customerId)

/-- Whether a call is a `signUp` whose four fields pass the field checks. -/
def Call.isAcceptedSignUp : Call → Bool
  | .signUp name email address phone => (signUpFieldCheck name email address phone).isNone
  | _ => false

/-- A call on the application or a direct `addCustomer` on its database. -/
inductive LedgerCall where
  | addCustomer (customer : Customer)
  | call (c : Call)

/-- The application after one such call. -/
def BankApplication.ledgerCall (app : BankApplication) : LedgerCall → BankApplication
  | .addCustomer customer => { app with db := (app.db.addCustomer customer).2 }
  | .call c => app.call c

/-- The customer ID a call hands out: the ID of the credentials a successful `signUp`
assigns, nothing for any other call. -/
def BankApplication.registeredId (app : BankApplication) : LedgerCall → Option String
  | .call (.signUp name email address phone) =>
    match (app.signUp name email address phone).1 with
    | .ok cred => some cred.1
    | .error _ => none
  | _ => none

/-- The IDs handed out by the successful registrations of a sequence of calls, in order,
with the application afterwards. -/
def BankApplication.runLedger (app : BankApplication) :
    List LedgerCall → List String × BankApplication
  | [] => ([], app)
  | c :: calls =>
    let r := BankApplication.runLedger (app.ledgerCall c) calls
    ((app.registeredId c).toList ++ r.1, r.2)

/-- A call on the access queue. -/
inductive QueueCall where
  | addToQueue (customerId : String)
  | removeFromQueue
  deriving DecidableEq

/-- The ATM after one queue call. -/
def ATM.queueCall (atm : ATM) : QueueCall → ATM
  | .addToQueue customerId => atm.addToQueue customerId
  | .removeFromQueue => atm.removeFromQueue

/-- The ATM after a sequence of queue calls, first call first. -/
def ATM.runQueue (atm : ATM) : List QueueCall → ATM
  | [] => atm
  | c :: calls => ATM.runQueue (atm.queueCall c) calls

/-- The IDs passed to `addToQueue` by a sequence of calls, in call order. -/
def enqueuedIds : List QueueCall → List String
  | [] => []
  | .addToQueue customerId :: calls => customerId :: enqueuedIds calls
  | .removeFromQueue :: calls => enqueuedIds calls

/-- The IDs that the `removeFromQueue` calls of a sequence took out of the queue: each call
on a non-empty queue takes out the ID at the front at that moment. -/
def ATM.dequeuedIds (atm : ATM) : List QueueCall → List String
  | [] => []
  | .addToQueue customerId :: calls => ATM.dequeuedIds (atm.addToQueue customerId) calls
  | .removeFromQueue :: calls =>
    atm.accessQueue.head?.toList ++ ATM.dequeuedIds atm.removeFromQueue calls

/-- The IDs enqueued by a sequence of calls on the empty queue and not yet dequeued, in the
order they were enqueued. -/
def pendingIds (calls : List QueueCall) : List String :=
  (enqueuedIds calls).filter (fun x => decide (x ∉ (ATM.mk []).dequeuedIds calls))

/-- Two logins, a logout and a third login. -/
def sampleQueueCalls : List QueueCall :=
  [.addToQueue "CUST001", .addToQueue "CUST002", .removeFromQueue, .addToQueue "CUST003"]

/-! ## Menu handlers -/

/-- The account-type tag the handlers take from an input token, `toupper(input[0])`; the
first character of an empty string is the terminating zero. -/
def accountTypeOf (input : String) : Char :=
  (input.data.headD (Char.ofNat 0)).toUpper

/-- The member `handleWithdrawal` on the token read for the account and the amount `stod`
parsed from the amount token.  The result is the exception caught, or what `withdraw`
reports, with the application afterwards. -/
def BankApplication.handleWithdrawal (app : BankApplication) (input : String) (amount : Double) :
    Except BankException Bool × BankApplication :=
  let accountType := accountTypeOf input
  if accountType ≠ 'S' ∧ accountType ≠ 'C' then
    (.error (.ValidationException "Invalid account type. Please enter S or C"), app)
  else if amount ≤ 0 then
    (.error (.ValidationException "Amount must be greater than zero"), app)
  else
    let r := withdraw app.db app.currentUserId accountType amount
    (r.1, { app with db := r.2 })

/-- The member `handleTransfer` on the option `stoi` parsed, the tokens read for the two
accounts, the recipient ID read when the option is 2, and the amount `stod` parsed. -/
def BankApplication.handleTransfer (app : BankApplication) (choice : Int)
    (fromInput toInput recipientId : String) (amount : Double) :
    Except BankException Bool × BankApplication :=
  if choice ≠ 1 ∧ choice ≠ 2 then
    (.error (.ValidationException "Invalid transfer option"), app)
  else
    let fromAccount := accountTypeOf fromInput
    if fromAccount ≠ 'S' ∧ fromAccount ≠ 'C' then
      (.error (.ValidationException "Invalid source account type"), app)
    else
      let toCustomerId := if choice = 1 then app.currentUserId else recipientId
      let toAccount := accountTypeOf toInput
      if toAccount ≠ 'S' ∧ toAccount ≠ 'C' then
        (.error (.ValidationException "Invalid destination account type"), app)
      else if amount ≤ 0 then
        (.error (.ValidationException "Amount must be greater than zero"), app)
      else
        let r := transfer app.db app.currentUserId toCustomerId fromAccount toAccount amount
        (r.1, { app with db := r.2 })

/-- The sum of the exact values of all savings and current balances of the database. -/
def CustomerDatabase.totalBalance (db : CustomerDatabase) : ℚ :=
  (db.customers.map (fun c => c.savingsBalance.toRat + c.currentBalance.toRat)).sum

/-- Every savings and current balance of the database is at least zero. -/
def CustomerDatabase.nonNegative (db : CustomerDatabase) : Prop :=
  ∀ c ∈ db.customers, 0 ≤ c.savingsBalance ∧ 0 ≤ c.currentBalance

/-! ## Sample records -/

/-- A record with savings balance 1000 and current balance 25000. -/
def sampleCustomer : Customer :=
  ⟨"CUST001", "PASS001", "Asha", "asha@mail.in", "12 Main Road", "9876543210", 1000, 25000, true⟩

/-- A second record, with the starting balances of a registration. -/
def sampleCustomer2 : Customer :=
  ⟨"CUST002", "PASS002", "Ravi", "ravi@mail.in", "7 Lake View", "9123456780", 10000, 25000, true⟩

/-- A database holding the two sample records. -/
def sampleDb : CustomerDatabase := ⟨[sampleCustomer, sampleCustomer2]⟩

/-- The application with the sample database, CUST002 logged in. -/
def sampleApp : BankApplication :=
  ⟨sampleDb, ⟨[]⟩, ⟨["CUST002"]⟩, "CUST002"⟩

/-- Thirteen calls: ten registrations with accepted fields, with a login, a withdrawal and
a registration with a one-letter name in between. -/
def sampleCalls : List Call :=
  [.signUp "Asha" "asha@mail.in" "12 Main Road" "9876543210",
   .login "CUST001" "PASS001",
   .signUp "Ravi" "ravi@mail.in" "7 Lake View" "9123456780",
   .withdraw "CUST001" 'S' 500,
   .signUp "Q" "q@mail.in" "1 Short Lane" "9000000000",
   .signUp "Mina" "mina@mail.in" "3 Hill Street" "9000000001",
   .signUp "Omar" "omar@mail.in" "4 Hill Street" "9000000002",
   .signUp "Lata" "lata@mail.in" "5 Hill Street" "9000000003",
   .signUp "Joel" "joel@mail.in" "6 Hill Street" "9000000004",
   .signUp "Kavi" "kavi@mail.in" "8 Hill Street" "9000000005",
   .signUp "Neha" "neha@mail.in" "9 Hill Street" "9000000006",
   .signUp "Igor" "igor@mail.in" "10 Hill Street" "9000000007",
   .signUp "Hana" "hana@mail.in" "11 Hill Street" "9000000008"]

/-- The double of the whole number `n`, exact for `n` below 2^53. -/
def Double.whole (n : Nat) : Double := .finite false (n * Double.scale)

/-- A whole number from 0 to 2^52 - 1, as a double. -/
def Double.IsWhole (x : Double) : Prop := ∃ n : Nat, n < 2 ^ 52 ∧ x = Double.whole n

/-- The double 2^-47, the spacing of the doubles between 32 and 64; `stod` returns it for
the token "7.105427357601002e-15". -/
def tiny : Double := .finite false (2 ^ 1027)

/-- The double 1.5 * 2^-47; `stod` returns it for the token "1.0658141036401503e-14". -/
def tinyAndHalf : Double := .finite false (3 * 2 ^ 1026)

/-- A registration, a withdrawal of 9900 from the savings account, which leaves 50 after the
service charge, and a transfer of 2^-47 from the current to the savings account. -/
def edgeCalls : List Call :=
  [.signUp "Asha" "asha@mail.in" "12 Main Road" "9876543210",
   .withdraw "CUST001" 'S' 9900,
   .transfer "CUST001" "CUST001" 'C' 'S' tiny]

/-- The database after the first two of these calls: savings 50, current 25000. -/
def lowDb : CustomerDatabase :=
  ⟨[⟨"CUST001", "PASS001", "Asha", "asha@mail.in", "12 Main Road", "9876543210", 50, 25000,
    true⟩]⟩

/-- The database after all three: savings 50 + 2^-47, current 25000. -/
def edgeDb : CustomerDatabase :=
  ⟨[⟨"CUST001", "PASS001", "Asha", "asha@mail.in", "12 Main Road", "9876543210",
    .finite false (50 * 2 ^ 1074 + 2 ^ 1027), 25000, true⟩]⟩

/-! ## Facts about slots -/

theorem findSlot_some {cs : List Customer} {customerId : String} {i : Nat}
    (h : findSlot cs customerId = some i) :
    i < cs.length ∧ (cs.getD i default).customerId = customerId ∧
      ∀ j, j < i → (cs.getD j default).customerId ≠ customerId := by
  induction cs generalizing i with
  | nil => simp [findSlot] at h
  | cons c cs ih =>
    unfold findSlot at h
    split at h
    · rename_i hc
      cases h
      simp [hc]
    · rename_i hc
      cases hf : findSlot cs customerId with
      | none => simp [hf] at h
      | some k =>
        simp [hf] at h
        subst h
        obtain ⟨h1, h2, h3⟩ := ih hf
        refine ⟨by simpa using h1, by simpa using h2, ?_⟩
        intro j hj
        cases j with
        | zero => simpa using hc
        | succ j => simpa using h3 j (by omega)

theorem updateAt_eq_set (cs : List Customer) (i : Nat) (f : Customer → Customer) :
    updateAt cs i f = cs.set i (f (cs.getD i default)) := by
  induction cs generalizing i with
  | nil => simp [updateAt]
  | cons c cs ih =>
    cases i with
    | zero => simp [updateAt]
    | succ i => simp [updateAt, ih]

theorem slot_write_same (db : CustomerDatabase) (i : Nat) (f : Customer → Customer)
    (hi : i < db.customers.length) : (db.write i f).slot i = f (db.slot i) := by
  simp [CustomerDatabase.write, CustomerDatabase.slot, updateAt_eq_set, List.getD_eq_getElem?_getD,
    List.getElem?_set, hi]

theorem slot_write_other (db : CustomerDatabase) (i k : Nat) (f : Customer → Customer)
    (hk : i ≠ k) : (db.write i f).slot k = db.slot k := by
  simp [CustomerDatabase.write, CustomerDatabase.slot, updateAt_eq_set, List.getD_eq_getElem?_getD,
    List.getElem?_set, hk]

theorem findCustomer_lt {db : CustomerDatabase} {customerId : String} {i : Nat}
    (h : db.findCustomer customerId = some i) : i < db.customers.length :=
  (findSlot_some h).1

theorem readBalance_writeBalance_same (t t' : Char) (v : Double) (c : Customer)
    (h : t = 'S' ↔ t' = 'S') : readBalance t (writeBalance t' v c) = v := by
  by_cases ht : t = 'S' <;> by_cases ht' : t' = 'S' <;>
    simp_all [readBalance, writeBalance]

theorem readBalance_writeBalance_other (t t' : Char) (v : Double) (c : Customer)
    (h : ¬ (t = 'S' ↔ t' = 'S')) : readBalance t (writeBalance t' v c) = readBalance t c := by
  by_cases ht : t = 'S' <;> by_cases ht' : t' = 'S' <;>
    simp_all [readBalance, writeBalance]

theorem write_length (db : CustomerDatabase) (i : Nat) (f : Customer → Customer) :
    (db.write i f).customers.length = db.customers.length := by
  simp [CustomerDatabase.write, updateAt_eq_set]

theorem findSlot_eq_none_iff (cs : List Customer) (customerId : String) :
    findSlot cs customerId = none ↔ customerId ∉ cs.map (fun c => c.customerId) := by
  induction cs with
  | nil => simp [findSlot]
  | cons c cs ih =>
    by_cases hc : c.customerId = customerId
    · simp [findSlot, hc]
    · have hc' : ¬ customerId = c.customerId := fun h => hc h.symm
      simp only [findSlot, if_neg hc, Option.map_eq_none', ih, List.map_cons, List.mem_cons,
        hc', false_or]

theorem findCustomer_isSome_iff (db : CustomerDatabase) (customerId : String) :
    (db.findCustomer customerId).isSome = true ↔ customerId ∈ db.ids := by
  rw [← not_iff_not, Bool.not_eq_true, Option.not_isSome, Option.isNone_iff_eq_none]
  exact findSlot_eq_none_iff db.customers customerId

theorem ids_updateAt (cs : List Customer) (i : Nat) (f : Customer → Customer)
    (hf : ∀ c, (f c).customerId = c.customerId) :
    (updateAt cs i f).map (fun c => c.customerId) = cs.map (fun c => c.customerId) := by
  induction cs generalizing i with
  | nil => simp [updateAt]
  | cons c cs ih =>
    cases i with
    | zero => simp [updateAt, hf]
    | succ i => simp [updateAt, ih]

theorem ids_write (db : CustomerDatabase) (i : Nat) (f : Customer → Customer)
    (hf : ∀ c, (f c).customerId = c.customerId) : (db.write i f).ids = db.ids :=
  ids_updateAt db.customers i f hf

theorem writeBalance_customerId (t : Char) (v : Double) (c : Customer) :
    (writeBalance t v c).customerId = c.customerId := by
  unfold writeBalance
  split <;> rfl

theorem ids_withdraw (db : CustomerDatabase) (customerId : String) (accountType : Char)
    (amount : Double) : (withdraw db customerId accountType amount).2.ids = db.ids := by
  unfold withdraw
  by_cases hamt : amount ≤ 0
  · rw [if_pos hamt]
  · rw [if_neg hamt]
    cases db.findCustomer customerId with
    | none => rfl
    | some i =>
      simp only []
      split_ifs <;> first | rfl | exact ids_write _ _ _ (writeBalance_customerId _ _)

theorem ids_transfer (db : CustomerDatabase) (fromId toId : String)
    (fromAccountType toAccountType : Char) (amount : Double) :
    (transfer db fromId toId fromAccountType toAccountType amount).2.ids = db.ids := by
  unfold transfer
  by_cases hamt : amount ≤ 0
  · rw [if_pos hamt]
  · rw [if_neg hamt]
    cases db.findCustomer fromId with
    | none => rfl
    | some i =>
      cases db.findCustomer toId with
      | none => rfl
      | some j =>
        simp only []
        split_ifs <;>
          first
          | rfl
          | (rw [ids_write _ _ _ (writeBalance_customerId _ _),
              ids_write _ _ _ (writeBalance_customerId _ _)])

theorem ids_changePassword (db : CustomerDatabase) (customerId newPassword : String) :
    (db.changePassword customerId newPassword).2.ids = db.ids := by
  unfold CustomerDatabase.changePassword
  cases db.findCustomer customerId with
  | none => rfl
  | some i =>
    exact (ids_write _ i (fun c => { c with isFirstLogin := false }) (fun _ => rfl)).trans
      (ids_write db i (fun c => { c with password := newPassword }) (fun _ => rfl))

/-! ## Facts about `double` -/

theorem Double.huge_pos : 0 < Double.huge := Nat.pow_pos (by decide)

theorem Double.scale_pos : 0 < Double.scale := Nat.pow_pos (by decide)

theorem Double.lt_def (x y : Double) : x < y ↔ Double.lt x y = true := Iff.rfl

theorem Double.le_def (x y : Double) : x ≤ y ↔ Double.le x y = true := Iff.rfl

theorem Double.sub_def (x y : Double) : x - y = x.add y.neg := rfl

theorem Double.add_def (x y : Double) : x + y = x.add y := rfl

theorem Double.zero_eq : (0 : Double) = .finite false 0 := by decide

theorem Double.lt_iff_key {x y : Double} (hx : x ≠ .nan) (hy : y ≠ .nan) :
    x < y ↔ x.key < y.key := by
  rw [Double.lt_def]
  cases x <;> cases y <;> simp_all [Double.lt]

theorem Double.le_iff_key {x y : Double} (hx : x ≠ .nan) (hy : y ≠ .nan) :
    x ≤ y ↔ x.key ≤ y.key := by
  rw [Double.le_def]
  cases x <;> cases y <;> simp_all [Double.le]

theorem Double.ne_nan_of_lt {x y : Double} (h : x < y) : x ≠ .nan ∧ y ≠ .nan := by
  rw [Double.lt_def] at h
  cases x <;> cases y <;> simp_all [Double.lt]

/-- `x < y` excludes `y <= x`. -/
theorem Double.not_le_of_lt {x y : Double} (h : x < y) : ¬ y ≤ x := by
  obtain ⟨hx, hy⟩ := Double.ne_nan_of_lt h
  rw [Double.lt_iff_key hx hy] at h
  rw [Double.le_iff_key hy hx]
  omega

theorem Double.ofMag_ne_nan (s : Bool) (k : Nat) : Double.ofMag s k ≠ .nan := by
  unfold Double.ofMag
  split <;> simp

theorem Double.key_ofMag_false (k : Nat) : 0 ≤ (Double.ofMag false k).key := by
  unfold Double.ofMag
  split <;> simp [Double.key]

theorem Double.sub_nan_left (y : Double) : Double.nan - y = .nan := by
  rw [Double.sub_def]
  cases y <;> rfl

theorem Double.ne_nan_of_sub_ne_nan {x y : Double} (h : x - y ≠ .nan) : x ≠ .nan := by
  intro hx
  exact h (hx ▸ Double.sub_nan_left y)

/-- When `x - p` is below zero for a double `p` of positive sign, `x` is below every
positive double that is at least `p`. -/
theorem Double.lt_of_sub_lt_zero (x : Double) (p m : Nat) (hpm : p ≤ m) (hm : 0 < m)
    (h : x - .finite false p < .finite false 0) : x < .finite false m := by
  have hn := (Double.ne_nan_of_lt h).1
  have hx := Double.ne_nan_of_sub_ne_nan hn
  rw [Double.lt_iff_key hn (by simp)] at h
  rw [Double.lt_iff_key hx (by simp)]
  have hhuge := Double.huge_pos
  cases x with
  | nan => exact absurd rfl hx
  | inf s =>
    cases s
    · simp [Double.sub_def, Double.neg, Double.add, Double.key] at h
      omega
    · simp [Double.key]
      omega
  | finite s k =>
    cases s
    · simp only [Double.sub_def, Double.neg, Double.add, Bool.not_false] at h
      simp only [Double.key, Bool.false_eq_true, if_false]
      by_cases hkp : k = p
      · simp [hkp, Double.key] at h
      · by_cases hlt : p < k
        · have hnn := Double.key_ofMag_false (k - p)
          simp [hkp, hlt] at h
          have h0 : (Double.finite false 0).key = 0 := by simp [Double.key]
          omega
        · omega
    · simp [Double.key]
      omega

/-! ## Withdrawal -/

/-- C2 does not hold in exact arithmetic.  With a savings balance of 50 + 2^-47 and the
amount 1.5 * 2^-47 (above zero), balance - amount - 50 is exactly -2^-48, below zero; the
code computes balance - amount as the double 50 and 50 - 50 as 0, does not throw, applies
the charge and changes the balance. -/
theorem withdraw_insufficient_counterexample :
    edgeDb.findCustomer "CUST001" = some 0 ∧ 0 < tinyAndHalf ∧
      (readBalance 'S' (edgeDb.slot 0)).toRat - tinyAndHalf.toRat - 50 < 0 ∧
      (withdraw edgeDb "CUST001" 'S' tinyAndHalf).1 = .ok true ∧
      (withdraw edgeDb "CUST001" 'S' tinyAndHalf).2 ≠ edgeDb := by
  have hbal : readBalance 'S' (edgeDb.slot 0) = .finite false (50 * 2 ^ 1074 + 2 ^ 1027) := by
    decide
  refine ⟨by decide, by decide, ?_, by decide, by decide⟩
  rw [hbal]
  simp only [Double.toRat, Double.scale, tinyAndHalf]
  norm_num

/-- C2, amended: for a customer ID with a record (found at slot `i`), an account type
Savings (penalty 50) or Current (penalty 250) and an amount above zero such that
balance - amount - penalty, computed in the type `double`, is below zero, `withdraw` throws
`InsufficientFundsException` and leaves the database as it was. -/
theorem withdraw_insufficient (db : CustomerDatabase) (customerId : String) (i : Nat)
    (accountType : Char) (amount penalty : Double)
    (hrec : db.findCustomer customerId = some i)
    (htype : (accountType = 'S' ∧ penalty = 50) ∨ (accountType = 'C' ∧ penalty = 250))
    (hpos : 0 < amount)
    (hshort : readBalance accountType (db.slot i) - amount - penalty < 0) :
    withdraw db customerId accountType amount =
      (.error (.InsufficientFundsException "Insufficient funds for withdrawal"), db) := by
  have hamt : ¬ amount ≤ 0 := Double.not_le_of_lt hpos
  have hC : ¬ ('C' = 'S') := by decide
  have h50 : (50 : Double) = .finite false (50 * 2 ^ 1074) := by decide
  have h250 : (250 : Double) = .finite false (250 * 2 ^ 1074) := by decide
  have h1000 : (1000 : Double) = .finite false (1000 * 2 ^ 1074) := by decide
  have h5000 : (5000 : Double) = .finite false (5000 * 2 ^ 1074) := by decide
  rcases htype with ⟨rfl, rfl⟩ | ⟨rfl, rfl⟩
  · have h1 : readBalance 'S' (db.slot i) - amount < 1000 := by
      rw [h1000]
      refine Double.lt_of_sub_lt_zero _ (50 * 2 ^ 1074) _ (by decide) (by decide) ?_
      rw [← h50, ← Double.zero_eq]
      exact hshort
    simp only [withdraw, if_neg hamt, hrec, ↓reduceIte, MIN_SAVINGS_BALANCE,
      SAVINGS_PENALTY, if_pos h1, if_pos hshort]
  · have h1 : readBalance 'C' (db.slot i) - amount < 5000 := by
      rw [h5000]
      refine Double.lt_of_sub_lt_zero _ (250 * 2 ^ 1074) _ (by decide) (by decide) ?_
      rw [← h250, ← Double.zero_eq]
      exact hshort
    simp only [withdraw, if_neg hamt, hrec, if_neg hC, MIN_CURRENT_BALANCE,
      CURRENT_PENALTY, if_pos h1, if_pos hshort]

/-- Witness of C2 as amended: current balance 25000, withdrawing 24800 would need 25050. -/
theorem withdraw_insufficient_witness :
    withdraw sampleDb "CUST002" 'C' 24800 =
      (.error (.InsufficientFundsException "Insufficient funds for withdrawal"), sampleDb) :=
  withdraw_insufficient sampleDb "CUST002" 1 'C' 24800 250 (by decide)
    (Or.inr ⟨rfl, rfl⟩) (by decide) (by decide)

/-! ## Transfer -/

/-- C4: `transfer` throws "Invalid transfer amount" when the amount is at most zero,
"Invalid customer ID(s)" when it is not and either ID has no record, and
`InsufficientFundsException` when both have a record and the source balance minus the amount
minus the penalty (50 from Savings, 250 otherwise), computed in the type `double`, is below
zero; each time, and whenever it throws at all, the database afterwards is the database
before. -/
theorem transfer_failure_unchanged (db : CustomerDatabase) (fromId toId : String)
    (fromAccountType toAccountType : Char) (amount : Double) :
    (amount ≤ 0 →
      transfer db fromId toId fromAccountType toAccountType amount =
        (.error (.ValidationException "Invalid transfer amount"), db)) ∧
    (¬ amount ≤ 0 → db.findCustomer fromId = none ∨ db.findCustomer toId = none →
      transfer db fromId toId fromAccountType toAccountType amount =
        (.error (.ValidationException "Invalid customer ID(s)"), db)) ∧
    (∀ i j, ¬ amount ≤ 0 → db.findCustomer fromId = some i → db.findCustomer toId = some j →
      readBalance fromAccountType (db.slot i) - amount -
        (if fromAccountType = 'S' then 50 else 250) < 0 →
      transfer db fromId toId fromAccountType toAccountType amount =
        (.error (.InsufficientFundsException "Insufficient funds for transfer"), db)) ∧
    (∀ e db', transfer db fromId toId fromAccountType toAccountType amount = (.error e, db') →
      db' = db) := by
  have hinvalid : amount ≤ 0 →
      transfer db fromId toId fromAccountType toAccountType amount =
        (.error (.ValidationException "Invalid transfer amount"), db) := by
    intro h
    simp only [transfer, if_pos h]
  have hmissing : ¬ amount ≤ 0 →
      db.findCustomer fromId = none ∨ db.findCustomer toId = none →
      transfer db fromId toId fromAccountType toAccountType amount =
        (.error (.ValidationException "Invalid customer ID(s)"), db) := by
    intro hamt hnone
    simp only [transfer, if_neg hamt]
    rcases hnone with h | h
    · rw [h]
    · rw [h]
      cases db.findCustomer fromId <;> rfl
  refine ⟨hinvalid, hmissing, ?_, ?_⟩
  · intro i j hamt hfrom hto hshort
    have h50 : (50 : Double) = .finite false (50 * 2 ^ 1074) := by decide
    have h250 : (250 : Double) = .finite false (250 * 2 ^ 1074) := by decide
    have h1000 : (1000 : Double) = .finite false (1000 * 2 ^ 1074) := by decide
    have h5000 : (5000 : Double) = .finite false (5000 * 2 ^ 1074) := by decide
    have hmin : readBalance fromAccountType (db.slot i) - amount <
        (if fromAccountType = 'S' then MIN_SAVINGS_BALANCE else MIN_CURRENT_BALANCE) := by
      by_cases ht : fromAccountType = 'S'
      · simp only [if_pos ht, MIN_SAVINGS_BALANCE] at hshort ⊢
        rw [h1000]
        refine Double.lt_of_sub_lt_zero _ (50 * 2 ^ 1074) _ (by decide) (by decide) ?_
        rw [← h50, ← Double.zero_eq]
        exact hshort
      · simp only [if_neg ht, MIN_CURRENT_BALANCE] at hshort ⊢
        rw [h5000]
        refine Double.lt_of_sub_lt_zero _ (250 * 2 ^ 1074) _ (by decide) (by decide) ?_
        rw [← h250, ← Double.zero_eq]
        exact hshort
    have hpen : readBalance fromAccountType (db.slot i) - amount -
        (if fromAccountType = 'S' then SAVINGS_PENALTY else CURRENT_PENALTY) < 0 := hshort
    simp only [transfer, if_neg hamt, hfrom, hto, if_pos hmin, if_pos hpen]
  · intro e db' h
    by_cases hamt : amount ≤ 0
    · rw [hinvalid hamt] at h
      exact (Prod.mk.inj h).2.symm
    · cases hf : db.findCustomer fromId with
      | none =>
        rw [hmissing hamt (Or.inl hf)] at h
        exact (Prod.mk.inj h).2.symm
      | some i =>
        cases ht : db.findCustomer toId with
        | none =>
          rw [hmissing hamt (Or.inr ht)] at h
          exact (Prod.mk.inj h).2.symm
        | some j =>
          simp only [transfer, if_neg hamt, hf, ht] at h
          by_cases h1 : readBalance fromAccountType (db.slot i) - amount <
              (if fromAccountType = 'S' then MIN_SAVINGS_BALANCE else MIN_CURRENT_BALANCE)
          · rw [if_pos h1] at h
            by_cases h2 : readBalance fromAccountType (db.slot i) - amount -
                (if fromAccountType = 'S' then SAVINGS_PENALTY else CURRENT_PENALTY) < 0
            · rw [if_pos h2] at h
              exact (Prod.mk.inj h).2.symm
            · rw [if_neg h2] at h
              simp at h
          · rw [if_neg h1] at h
            simp at h

/-- Witness of C4: a transfer of 24800 from a current account holding 25000 is refused and
the database is left as it was. -/
theorem transfer_failure_unchanged_witness :
    transfer sampleDb "CUST002" "CUST001" 'C' 'S' 24800 =
      (.error (.InsufficientFundsException "Insufficient funds for transfer"), sampleDb) :=
  (transfer_failure_unchanged sampleDb "CUST002" "CUST001" 'C' 'S' 24800).2.2.1 1 0
    (by decide) (by decide) (by decide) (by decide)

/-! ## Credential pool and registration -/

/-- C5 does not hold: the ten calls on a fresh pool do not return CUST010 down to CUST001;
the first call already returns CUST001. -/
theorem issue_order_counterexample :
    (DefaultCredentials.new.getNextCredential).1 = .ok ("CUST001", "PASS001") ∧
      (DefaultCredentials.new.issue 10).1 ≠
        [.ok ("CUST010", "PASS010"), .ok ("CUST009", "PASS009"), .ok ("CUST008", "PASS008"),
          .ok ("CUST007", "PASS007"), .ok ("CUST006", "PASS006"), .ok ("CUST005", "PASS005"),
          .ok ("CUST004", "PASS004"), .ok ("CUST003", "PASS003"), .ok ("CUST002", "PASS002"),
          .ok ("CUST001", "PASS001")] := by
  refine ⟨rfl, ?_⟩
  intro h
  have h0 := (List.cons.inj h).1
  have h1 : ("CUST001", "PASS001") = (("CUST010", "PASS010") : String × String) :=
    Except.ok.inj h0
  exact absurd h1 (by decide)

/-- C5, amended: ten consecutive `getNextCredential` calls on a freshly constructed pool
return the pairs CUST001/PASS001, CUST002/PASS002, ..., CUST010/PASS010 in that order, the
reverse of the order in which the constructor pushes them, and leave the pool empty. -/
theorem issue_order :
    DefaultCredentials.new.issue 10 =
      ([.ok ("CUST001", "PASS001"), .ok ("CUST002", "PASS002"), .ok ("CUST003", "PASS003"),
        .ok ("CUST004", "PASS004"), .ok ("CUST005", "PASS005"), .ok ("CUST006", "PASS006"),
        .ok ("CUST007", "PASS007"), .ok ("CUST008", "PASS008"), .ok ("CUST009", "PASS009"),
        .ok ("CUST010", "PASS010")], ⟨[]⟩) := rfl

theorem signUp_accepted (app : BankApplication) (name email address phone : String)
    (cred : String × String) (rest : List (String × String))
    (hvalid : signUpFieldCheck name email address phone = none)
    (hpool : app.defaultCreds.credentials = cred :: rest)
    (hcount : app.db.customers.length < 100) (hfresh : cred.1 ∉ app.db.ids) :
    app.signUp name email address phone =
      (.ok cred,
        { app with
          defaultCreds := ⟨rest⟩
          db := ⟨app.db.customers ++
            [{ customerId := cred.1, password := cred.2, name := name, email := email,
               address := address, phone := phone, savingsBalance := 10000,
               currentBalance := 25000, isFirstLogin := true }]⟩ }) := by
  have hfind : (app.db.findCustomer cred.1).isSome = false := by
    rw [← Bool.not_eq_true, findCustomer_isSome_iff]
    exact hfresh
  have hcap : ¬ app.db.customerCount ≥ MAX_CUSTOMERS := by
    simp only [CustomerDatabase.customerCount, MAX_CUSTOMERS]
    omega
  simp [BankApplication.signUp, hvalid, DefaultCredentials.getNextCredential, hpool,
    CustomerDatabase.addCustomer, hcap, hfind]

theorem signUp_exhausted (app : BankApplication) (name email address phone : String)
    (hvalid : signUpFieldCheck name email address phone = none)
    (hpool : app.defaultCreds.credentials = []) :
    app.signUp name email address phone =
      (.error (.DatabaseException "No more default credentials available"), app) := by
  simp [BankApplication.signUp, hvalid, DefaultCredentials.getNextCredential, hpool]

theorem signUp_rejected (app : BankApplication) (name email address phone : String)
    (e : BankException) (hcheck : signUpFieldCheck name email address phone = some e) :
    app.signUp name email address phone = (.error e, app) := by
  simp [BankApplication.signUp, hcheck]

theorem fst_getElem_not_mem_take (l : List (String × String)) (k : Nat) (hk : k < l.length)
    (hnd : (l.map Prod.fst).Nodup) : (l[k]).1 ∉ (l.take k).map Prod.fst := by
  have hsplit : l.map Prod.fst =
      (l.take k).map Prod.fst ++ ((l[k]).1 :: (l.drop (k + 1)).map Prod.fst) := by
    rw [← List.map_cons, ← List.drop_eq_getElem_cons hk, ← List.map_append,
      List.take_append_drop]
  rw [hsplit] at hnd
  intro hmem
  exact (List.disjoint_of_nodup_append hnd) hmem (List.mem_cons_self _ _)

theorem map_fst_take_succ (l : List (String × String)) (k : Nat) (hk : k < l.length) :
    (l.take k).map Prod.fst ++ [(l[k]).1] = (l.take (k + 1)).map Prod.fst := by
  rw [List.take_succ, List.getElem?_eq_getElem hk, List.map_append]
  rfl

theorem ids_append_singleton (cs : List Customer) (c : Customer) :
    (CustomerDatabase.mk (cs ++ [c])).ids = (CustomerDatabase.mk cs).ids ++ [c.customerId] := by
  simp [CustomerDatabase.ids]

theorem new_credentials_length : DefaultCredentials.new.credentials.length = 10 := rfl

theorem new_credentials_nodup : (DefaultCredentials.new.credentials.map Prod.fst).Nodup := by
  decide

/-- One call keeps the pool and the stored IDs in step with the number of accepted
registrations so far. -/
theorem call_pool_invariant (app : BankApplication) (k : Nat) (c : Call)
    (hpool : app.defaultCreds.credentials = DefaultCredentials.new.credentials.drop k)
    (hids : app.db.ids = (DefaultCredentials.new.credentials.take k).map Prod.fst) :
    (app.call c).defaultCreds.credentials =
        DefaultCredentials.new.credentials.drop (k + if c.isAcceptedSignUp then 1 else 0) ∧
      (app.call c).db.ids =
        (DefaultCredentials.new.credentials.take
          (k + if c.isAcceptedSignUp then 1 else 0)).map Prod.fst := by
  cases c with
  | signUp name email address phone =>
    cases hcheck : signUpFieldCheck name email address phone with
    | some e =>
      simp only [BankApplication.call, signUp_rejected app name email address phone e hcheck,
        Call.isAcceptedSignUp, hcheck, Option.isNone_some, Bool.false_eq_true, if_false,
        Nat.add_zero]
      exact ⟨hpool, hids⟩
    | none =>
      simp only [BankApplication.call, Call.isAcceptedSignUp, hcheck, Option.isNone_none,
        if_true]
      by_cases hk : k < 10
      · have hk' : k < DefaultCredentials.new.credentials.length := by
          rw [new_credentials_length]; exact hk
        have hdrop := List.drop_eq_getElem_cons hk'
        have hcount : app.db.customers.length < 100 := by
          have hlen := congrArg List.length hids
          simp only [CustomerDatabase.ids, List.length_map, List.length_take,
            new_credentials_length] at hlen
          omega
        have hfresh : (DefaultCredentials.new.credentials[k]).1 ∉ app.db.ids := by
          rw [hids]
          exact fst_getElem_not_mem_take _ k hk' new_credentials_nodup
        rw [signUp_accepted app name email address phone _ _ hcheck (hpool.trans hdrop) hcount
          hfresh]
        refine ⟨rfl, ?_⟩
        exact (ids_append_singleton _ _).trans
          ((congrArg (· ++ [_]) hids).trans (map_fst_take_succ _ k hk'))
      · have hk' : DefaultCredentials.new.credentials.length ≤ k := by
          rw [new_credentials_length]; omega
        have hempty : app.defaultCreds.credentials = [] := by
          rw [hpool]; exact List.drop_of_length_le hk'
        rw [signUp_exhausted app name email address phone hcheck hempty]
        refine ⟨?_, ?_⟩
        · rw [hempty, List.drop_of_length_le (by omega)]
        · rw [hids, List.take_of_length_le hk', List.take_of_length_le (by omega)]
  | login customerId password =>
    simp only [BankApplication.call, BankApplication.login, Call.isAcceptedSignUp,
      Bool.false_eq_true, if_false, Nat.add_zero]
    split <;> exact ⟨hpool, hids⟩
  | logout =>
    exact ⟨hpool, hids⟩
  | changePassword customerId newPassword =>
    exact ⟨hpool, (ids_changePassword _ _ _).trans hids⟩
  | withdraw customerId accountType amount =>
    exact ⟨hpool, (ids_withdraw _ _ _ _).trans hids⟩
  | transfer fromId toId fromAccountType toAccountType amount =>
    exact ⟨hpool, (ids_transfer _ _ _ _ _ _).trans hids⟩

theorem run_pool_invariant (calls : List Call) (app : BankApplication) (k : Nat)
    (hpool : app.defaultCreds.credentials = DefaultCredentials.new.credentials.drop k)
    (hids : app.db.ids = (DefaultCredentials.new.credentials.take k).map Prod.fst) :
    (app.run calls).defaultCreds.credentials =
        DefaultCredentials.new.credentials.drop (k + calls.countP Call.isAcceptedSignUp) ∧
      (app.run calls).db.ids =
        (DefaultCredentials.new.credentials.take
          (k + calls.countP Call.isAcceptedSignUp)).map Prod.fst := by
  induction calls generalizing app k with
  | nil => exact ⟨hpool, hids⟩
  | cons c calls ih =>
    obtain ⟨h1, h2⟩ := call_pool_invariant app k c hpool hids
    have h := ih (app.call c) _ h1 h2
    rw [List.countP_cons, Nat.add_comm (List.countP _ calls), ← Nat.add_assoc]
    exact h

/-- C6: after any sequence of registration, login, logout, password-change, withdrawal and
transfer calls on the freshly constructed application, a registration with accepted fields
succeeds when fewer than ten such registrations came before it: it returns the next pair of
the pool, removes it from the pool and appends the new record to the database.  When ten or
more came before it, it fails with "No more default credentials available" and leaves the
application, pool and database included, as it was. -/
theorem signUp_after_calls (calls : List Call) (name email address phone : String)
    (hvalid : signUpFieldCheck name email address phone = none) :
    (calls.countP Call.isAcceptedSignUp < 10 →
      ∃ cred rest,
        DefaultCredentials.new.credentials.drop (calls.countP Call.isAcceptedSignUp) =
          cred :: rest ∧
        (BankApplication.new.run calls).signUp name email address phone =
          (.ok cred,
            { BankApplication.new.run calls with
              defaultCreds := ⟨rest⟩
              db := ⟨(BankApplication.new.run calls).db.customers ++
                [{ customerId := cred.1, password := cred.2, name := name, email := email,
                   address := address, phone := phone, savingsBalance := 10000,
                   currentBalance := 25000, isFirstLogin := true }]⟩ })) ∧
    (10 ≤ calls.countP Call.isAcceptedSignUp →
      (BankApplication.new.run calls).signUp name email address phone =
        (.error (.DatabaseException "No more default credentials available"),
          BankApplication.new.run calls)) := by
  obtain ⟨hpool, hids⟩ := run_pool_invariant calls BankApplication.new 0 rfl rfl
  rw [Nat.zero_add] at hpool hids
  constructor
  · intro hk
    have hk' : calls.countP Call.isAcceptedSignUp < DefaultCredentials.new.credentials.length := by
      rw [new_credentials_length]; exact hk
    have hdrop := List.drop_eq_getElem_cons hk'
    have hcount : (BankApplication.new.run calls).db.customers.length < 100 := by
      have hlen := congrArg List.length hids
      simp only [CustomerDatabase.ids, List.length_map, List.length_take,
        new_credentials_length] at hlen
      omega
    have hfresh : (DefaultCredentials.new.credentials[calls.countP Call.isAcceptedSignUp]).1 ∉
        (BankApplication.new.run calls).db.ids := by
      rw [hids]
      exact fst_getElem_not_mem_take _ _ hk' new_credentials_nodup
    exact ⟨_, _, hdrop, signUp_accepted _ name email address phone _ _ hvalid
      (hpool.trans hdrop) hcount hfresh⟩
  · intro hk
    have hk' : DefaultCredentials.new.credentials.length ≤ calls.countP Call.isAcceptedSignUp := by
      rw [new_credentials_length]; exact hk
    exact signUp_exhausted _ name email address phone hvalid
      (hpool.trans (List.drop_of_length_le hk'))

/-- Witness of C6: after the ten accepted registrations of `sampleCalls` the next one fails
and changes nothing. -/
theorem signUp_after_calls_witness :
    (BankApplication.new.run sampleCalls).signUp "Zoya" "zoya@mail.in" "2 Park Lane"
        "9111111111" =
      (.error (.DatabaseException "No more default credentials available"),
        BankApplication.new.run sampleCalls) :=
  (signUp_after_calls sampleCalls "Zoya" "zoya@mail.in" "2 Park Lane" "9111111111"
    (by decide)).2 (by decide)

/-! ## Uniqueness of customer IDs -/

theorem addCustomer_cases (db : CustomerDatabase) (customer : Customer) :
    (∃ e, db.addCustomer customer = (.error e, db)) ∨
      (customer.customerId ∉ db.ids ∧ db.customers.length < 100 ∧
        db.addCustomer customer = (.ok (), ⟨db.customers ++ [customer]⟩)) := by
  unfold CustomerDatabase.addCustomer
  by_cases hcap : db.customerCount ≥ MAX_CUSTOMERS
  · exact Or.inl ⟨_, if_pos hcap⟩
  · by_cases hfind : (db.findCustomer customer.customerId).isSome = true
    · left
      exact ⟨_, by rw [if_neg hcap, if_pos hfind]⟩
    · right
      refine ⟨fun h => hfind ((findCustomer_isSome_iff _ _).mpr h), ?_, ?_⟩
      · simp only [CustomerDatabase.customerCount, MAX_CUSTOMERS] at hcap
        omega
      · rw [if_neg hcap, if_neg hfind]

/-- A `signUp` either leaves the database as it was and hands out nothing, or hands out
an ID that was not stored and appends a record with that ID. -/
theorem signUp_cases (app : BankApplication) (name email address phone : String) :
    ((∃ e, (app.signUp name email address phone).1 = .error e) ∧
        (app.signUp name email address phone).2.db = app.db) ∨
      (∃ cred, (app.signUp name email address phone).1 = .ok cred ∧ cred.1 ∉ app.db.ids ∧
        (app.signUp name email address phone).2.db.ids = app.db.ids ++ [cred.1]) := by
  unfold BankApplication.signUp
  cases signUpFieldCheck name email address phone with
  | some e => exact Or.inl ⟨⟨e, rfl⟩, rfl⟩
  | none =>
    simp only [DefaultCredentials.getNextCredential]
    cases app.defaultCreds.credentials with
    | nil => exact Or.inl ⟨⟨_, rfl⟩, rfl⟩
    | cons cred rest =>
      simp only []
      rcases addCustomer_cases app.db
        { customerId := cred.1, password := cred.2, name := name, email := email,
          address := address, phone := phone, savingsBalance := 10000, currentBalance := 25000,
          isFirstLogin := true } with ⟨e, he⟩ | ⟨hfresh, _, hok⟩
      · rw [he]
        exact Or.inl ⟨⟨e, rfl⟩, rfl⟩
      · rw [hok]
        exact Or.inr ⟨cred, rfl, hfresh, ids_append_singleton _ _⟩

/-- One call leaves the stored IDs as they were or appends one ID that was not stored; the
ID a successful registration hands out is the appended one. -/
theorem ledgerCall_ids (app : BankApplication) (c : LedgerCall) :
    (app.registeredId c = none ∧
        ((app.ledgerCall c).db.ids = app.db.ids ∨
          ∃ id, id ∉ app.db.ids ∧ (app.ledgerCall c).db.ids = app.db.ids ++ [id])) ∨
      (∃ id, app.registeredId c = some id ∧ id ∉ app.db.ids ∧
        (app.ledgerCall c).db.ids = app.db.ids ++ [id]) := by
  cases c with
  | addCustomer customer =>
    left
    refine ⟨rfl, ?_⟩
    rcases addCustomer_cases app.db customer with ⟨e, he⟩ | ⟨hfresh, _, hok⟩
    · left
      simp only [BankApplication.ledgerCall, he]
    · right
      refine ⟨customer.customerId, hfresh, ?_⟩
      simp only [BankApplication.ledgerCall, hok]
      exact ids_append_singleton _ _
  | call c =>
    cases c with
    | signUp name email address phone =>
      rcases signUp_cases app name email address phone with ⟨⟨e, he⟩, hdb⟩ | ⟨cred, hc, hfresh, hids⟩
      · left
        refine ⟨?_, Or.inl ?_⟩
        · simp only [BankApplication.registeredId, he]
        · simp only [BankApplication.ledgerCall, BankApplication.call, hdb]
      · right
        refine ⟨cred.1, ?_, hfresh, hids⟩
        simp only [BankApplication.registeredId, hc]
    | login customerId password =>
      left
      refine ⟨rfl, Or.inl ?_⟩
      simp only [BankApplication.ledgerCall, BankApplication.call, BankApplication.login]
      split <;> rfl
    | logout => exact Or.inl ⟨rfl, Or.inl rfl⟩
    | changePassword customerId newPassword =>
      exact Or.inl ⟨rfl, Or.inl (ids_changePassword _ _ _)⟩
    | withdraw customerId accountType amount =>
      exact Or.inl ⟨rfl, Or.inl (ids_withdraw _ _ _ _)⟩
    | transfer fromId toId fromAccountType toAccountType amount =>
      exact Or.inl ⟨rfl, Or.inl (ids_transfer _ _ _ _ _ _)⟩

theorem runLedger_nodup (calls : List LedgerCall) (app : BankApplication)
    (hnd : app.db.ids.Nodup) :
    (app.runLedger calls).2.db.ids.Nodup ∧ (app.runLedger calls).1.Nodup ∧
      ∀ id ∈ (app.runLedger calls).1, id ∉ app.db.ids := by
  induction calls generalizing app with
  | nil => exact ⟨hnd, List.nodup_nil, fun _ h => absurd h (List.not_mem_nil _)⟩
  | cons c calls ih =>
    have happend : ∀ id, id ∉ app.db.ids → (app.db.ids ++ [id]).Nodup := by
      intro id hid
      rw [List.nodup_append]
      refine ⟨hnd, List.nodup_singleton id, ?_⟩
      intro x hx hx'
      rw [List.mem_singleton] at hx'
      exact hid (hx' ▸ hx)
    simp only [BankApplication.runLedger]
    rcases ledgerCall_ids app c with ⟨hnone, hids⟩ | ⟨id, hsome, hfresh, hids⟩
    · have hnd1 : (app.ledgerCall c).db.ids.Nodup := by
        rcases hids with h | ⟨id, hid, h⟩
        · rw [h]; exact hnd
        · rw [h]; exact happend id hid
      have hsub : ∀ x ∈ app.db.ids, x ∈ (app.ledgerCall c).db.ids := by
        intro x hx
        rcases hids with h | ⟨id, _, h⟩
        · rw [h]; exact hx
        · rw [h]; exact List.mem_append_left _ hx
      obtain ⟨h1, h2, h3⟩ := ih (app.ledgerCall c) hnd1
      rw [hnone]
      exact ⟨h1, h2, fun x hx hmem => h3 x hx (hsub x hmem)⟩
    · have hnd1 : (app.ledgerCall c).db.ids.Nodup := by
        rw [hids]; exact happend id hfresh
      obtain ⟨h1, h2, h3⟩ := ih (app.ledgerCall c) hnd1
      rw [hsome]
      refine ⟨h1, ?_, ?_⟩
      · show (id :: _).Nodup
        rw [List.nodup_cons]
        refine ⟨fun hmem => h3 id hmem ?_, h2⟩
        rw [hids]
        exact List.mem_append_right _ (List.mem_singleton_self id)
      · intro x hx
        change x ∈ id :: _ at hx
        rcases List.mem_cons.mp hx with rfl | hx
        · exact hfresh
        · intro hmem
          exact h3 x hx (by rw [hids]; exact List.mem_append_left _ hmem)

/-- C7: from an empty database and any pool, after any sequence of `addCustomer`,
registration, login, logout, password-change, withdrawal and transfer calls the stored
records have pairwise distinct customer IDs, and the IDs handed out by the successful
registrations of the sequence are pairwise distinct. -/
theorem customer_ids_distinct (creds : DefaultCredentials) (calls : List LedgerCall) :
    ((BankApplication.mk CustomerDatabase.empty creds ⟨[]⟩ "").runLedger calls).2.db.ids.Nodup ∧
      ((BankApplication.mk CustomerDatabase.empty creds ⟨[]⟩ "").runLedger calls).1.Nodup :=
  have h := runLedger_nodup calls (BankApplication.mk CustomerDatabase.empty creds ⟨[]⟩ "")
    List.nodup_nil
  ⟨h.1, h.2.1⟩

/-! ## Insertion and lookup -/

theorem findSlot_append (cs : List Customer) (c : Customer) (customerId : String) :
    findSlot (cs ++ [c]) customerId =
      match findSlot cs customerId with
      | some i => some i
      | none => if c.customerId = customerId then some cs.length else none := by
  induction cs with
  | nil =>
    by_cases hc : c.customerId = customerId <;> simp [findSlot, hc]
  | cons d cs ih =>
    by_cases hd : d.customerId = customerId
    · simp [findSlot, hd]
    · have hstep : findSlot (d :: cs ++ [c]) customerId =
          (findSlot (cs ++ [c]) customerId).map (· + 1) := by
        show findSlot (d :: (cs ++ [c])) customerId = _
        simp only [findSlot, if_neg hd]
      have hstep' : findSlot (d :: cs) customerId = (findSlot cs customerId).map (· + 1) := by
        simp only [findSlot, if_neg hd]
      rw [hstep, hstep', ih]
      cases findSlot cs customerId with
      | some i => rfl
      | none =>
        by_cases hc : c.customerId = customerId <;> simp [hc]

/-- C8: `addCustomer` fails with "Maximum customer limit reached" when the database holds
100 records (its count is never above the 100 slots; the test of the source is count >= 100);
otherwise it fails with "Customer ID already exists" when a record with the same customer ID
is stored; either failure leaves the database as it was.  Otherwise it succeeds, after which
`findCustomer` of the new ID addresses a slot holding exactly the inserted record, and
`findCustomer` of every other ID returns the slot it returned before, holding the record it
held before. -/
theorem addCustomer_spec (db : CustomerDatabase) (r : Customer) :
    (100 ≤ db.customers.length →
      db.addCustomer r = (.error (.DatabaseException "Maximum customer limit reached"), db)) ∧
    (db.customers.length < 100 → r.customerId ∈ db.ids →
      db.addCustomer r = (.error (.DatabaseException "Customer ID already exists"), db)) ∧
    (db.customers.length < 100 → r.customerId ∉ db.ids →
      (db.addCustomer r).1 = .ok () ∧
      (∃ i, (db.addCustomer r).2.findCustomer r.customerId = some i ∧
        (db.addCustomer r).2.slot i = r) ∧
      ∀ customerId, customerId ≠ r.customerId →
        (db.addCustomer r).2.findCustomer customerId = db.findCustomer customerId ∧
        ∀ i, db.findCustomer customerId = some i → (db.addCustomer r).2.slot i = db.slot i) := by
  refine ⟨?_, ?_, ?_⟩
  · intro hfull
    have hcap : db.customerCount ≥ MAX_CUSTOMERS := hfull
    simp only [CustomerDatabase.addCustomer, if_pos hcap]
  · intro hroom hmem
    have hcap : ¬ db.customerCount ≥ MAX_CUSTOMERS := by
      simp only [CustomerDatabase.customerCount, MAX_CUSTOMERS]
      omega
    have hfind := (findCustomer_isSome_iff db r.customerId).mpr hmem
    simp only [CustomerDatabase.addCustomer, if_neg hcap, if_pos hfind]
  · intro hroom hfresh
    have hcap : ¬ db.customerCount ≥ MAX_CUSTOMERS := by
      simp only [CustomerDatabase.customerCount, MAX_CUSTOMERS]
      omega
    have hnone : findSlot db.customers r.customerId = none :=
      (findSlot_eq_none_iff _ _).mpr hfresh
    have hfind : ¬ (db.findCustomer r.customerId).isSome = true := by
      simp [CustomerDatabase.findCustomer, hnone]
    have hrun : db.addCustomer r = (.ok (), ⟨db.customers ++ [r]⟩) := by
      simp only [CustomerDatabase.addCustomer, if_neg hcap, if_neg hfind]
    rw [hrun]
    refine ⟨rfl, ⟨db.customers.length, ?_, ?_⟩, ?_⟩
    · simp [CustomerDatabase.findCustomer, findSlot_append, hnone]
    · simp [CustomerDatabase.slot, List.getD_eq_getElem?_getD]
    · intro customerId hne
      have hne' : ¬ r.customerId = customerId := fun h => hne h.symm
      constructor
      · simp only [CustomerDatabase.findCustomer, findSlot_append, if_neg hne']
        cases findSlot db.customers customerId <;> rfl
      · intro i hi
        have hlt := findCustomer_lt hi
        simp [CustomerDatabase.slot, List.getD_eq_getElem?_getD, List.getElem?_append_left hlt]

/-- Witness of C8: inserting CUST002 into a database holding only CUST001 succeeds. -/
theorem addCustomer_spec_witness :
    (CustomerDatabase.addCustomer ⟨[sampleCustomer]⟩ sampleCustomer2).1 = .ok () ∧
      (CustomerDatabase.addCustomer ⟨[sampleCustomer]⟩ sampleCustomer2).2 = sampleDb ∧
      CustomerDatabase.addCustomer sampleDb sampleCustomer2 =
        (.error (.DatabaseException "Customer ID already exists"), sampleDb) :=
  ⟨((addCustomer_spec ⟨[sampleCustomer]⟩ sampleCustomer2).2.2 (by decide) (by decide)).1,
    rfl, (addCustomer_spec sampleDb sampleCustomer2).2.1 (by decide) (by decide)⟩

/-! ## Password change -/

theorem findSlot_congr (cs cs' : List Customer) (customerId : String)
    (h : cs.map (fun c => c.customerId) = cs'.map (fun c => c.customerId)) :
    findSlot cs customerId = findSlot cs' customerId := by
  induction cs generalizing cs' with
  | nil =>
    cases cs' with
    | nil => rfl
    | cons d ds => simp at h
  | cons c cs ih =>
    cases cs' with
    | nil => simp at h
    | cons d ds =>
      simp only [List.map_cons, List.cons.injEq] at h
      simp only [findSlot, h.1, ih ds h.2]

theorem changePassword_customers (db : CustomerDatabase) (customerId newPassword : String)
    (i : Nat) (hfind : db.findCustomer customerId = some i) :
    db.changePassword customerId newPassword =
      (true, ⟨db.customers.set i
        { db.slot i with password := newPassword, isFirstLogin := false }⟩) := by
  have hi := findCustomer_lt hfind
  simp only [CustomerDatabase.changePassword, hfind, CustomerDatabase.write, updateAt_eq_set,
    CustomerDatabase.slot, List.set_set, List.getD_eq_getElem?_getD]
  simp [List.getElem?_set, hi]

/-- C9: `changePassword` returns true exactly when a record with the ID is stored.  When it
returns true, the ID is found at some slot `i`, the database afterwards is the one before
with only the password of that record replaced by the new password and its `isFirstLogin`
set to false, and `validateCredentials` of that ID then holds exactly for the new password.
When it returns false, the database is as it was. -/
theorem changePassword_spec (db : CustomerDatabase) (customerId newPassword : String) :
    ((db.changePassword customerId newPassword).1 = true ↔ customerId ∈ db.ids) ∧
    ((db.changePassword customerId newPassword).1 = true →
      ∃ i, db.findCustomer customerId = some i ∧
        (db.changePassword customerId newPassword).2.customers =
          db.customers.set i { db.slot i with password := newPassword, isFirstLogin := false } ∧
        ((db.changePassword customerId newPassword).2.slot i).isFirstLogin = false ∧
        ∀ q,
          (db.changePassword customerId newPassword).2.validateCredentials customerId q = true ↔
            q = newPassword) ∧
    ((db.changePassword customerId newPassword).1 = false →
      (db.changePassword customerId newPassword).2 = db) := by
  refine ⟨?_, ?_, ?_⟩
  · rw [← findCustomer_isSome_iff]
    unfold CustomerDatabase.changePassword
    cases db.findCustomer customerId <;> simp
  · intro htrue
    cases hfind : db.findCustomer customerId with
    | none => simp [CustomerDatabase.changePassword, hfind] at htrue
    | some i =>
      have hi := findCustomer_lt hfind
      have hrun := changePassword_customers db customerId newPassword i hfind
      have hfind' : (db.changePassword customerId newPassword).2.findCustomer customerId =
          some i := by
        rw [← hfind]
        exact findSlot_congr _ _ _ (ids_changePassword db customerId newPassword)
      have hslot : (db.changePassword customerId newPassword).2.slot i =
          { db.slot i with password := newPassword, isFirstLogin := false } := by
        rw [hrun]
        simp [CustomerDatabase.slot, List.getD_eq_getElem?_getD, List.getElem?_set, hi]
      refine ⟨i, rfl, by rw [hrun], by rw [hslot], ?_⟩
      intro q
      simp only [CustomerDatabase.validateCredentials, hfind', hslot, decide_eq_true_eq]
      exact eq_comm
  · intro hfalse
    unfold CustomerDatabase.changePassword at hfalse ⊢
    cases hfind : db.findCustomer customerId with
    | none => rfl
    | some i => simp [hfind] at hfalse

/-- Witness of C9: changing the password of CUST002 in the sample database succeeds, and a
change for an ID that is not stored leaves the database as it was. -/
theorem changePassword_spec_witness :
    (sampleDb.changePassword "CUST002" "s3cret!").1 = true ∧
      (∃ i, sampleDb.findCustomer "CUST002" = some i ∧
        (sampleDb.changePassword "CUST002" "s3cret!").2.customers =
          sampleDb.customers.set i
            { sampleDb.slot i with password := "s3cret!", isFirstLogin := false } ∧
        ((sampleDb.changePassword "CUST002" "s3cret!").2.slot i).isFirstLogin = false ∧
        ∀ q,
          (sampleDb.changePassword "CUST002" "s3cret!").2.validateCredentials "CUST002" q =
            true ↔ q = "s3cret!") ∧
      (sampleDb.changePassword "CUST404" "s3cret!").2 = sampleDb :=
  ⟨by decide, (changePassword_spec sampleDb "CUST002" "s3cret!").2.1 (by decide),
    (changePassword_spec sampleDb "CUST404" "s3cret!").2.2 (by decide)⟩

/-! ## Access queue -/

/-- What was in the queue or enqueued since is what has been dequeued since followed by
what is in the queue now. -/
theorem runQueue_split (calls : List QueueCall) (atm : ATM) :
    atm.accessQueue ++ enqueuedIds calls =
      atm.dequeuedIds calls ++ (atm.runQueue calls).accessQueue := by
  induction calls generalizing atm with
  | nil => simp [enqueuedIds, ATM.dequeuedIds, ATM.runQueue]
  | cons c calls ih =>
    cases c with
    | addToQueue customerId =>
      have h := ih (atm.addToQueue customerId)
      simp only [ATM.addToQueue, List.append_assoc, List.singleton_append] at h
      simpa [enqueuedIds, ATM.dequeuedIds, ATM.runQueue, ATM.queueCall, ATM.addToQueue] using h
    | removeFromQueue =>
      have h := ih atm.removeFromQueue
      cases hq : atm.accessQueue with
      | nil =>
        simp only [ATM.removeFromQueue, hq] at h
        simpa [enqueuedIds, ATM.dequeuedIds, ATM.runQueue, ATM.queueCall, ATM.removeFromQueue,
          hq] using h
      | cons front rest =>
        simp only [ATM.removeFromQueue, hq] at h
        simp only [enqueuedIds, ATM.dequeuedIds, ATM.runQueue, ATM.queueCall,
          ATM.removeFromQueue, hq, List.head?_cons, Option.toList_some, List.cons_append,
          List.singleton_append, List.nil_append]
        rw [h]

theorem filter_not_mem_append (l q : List String) (hnd : (l ++ q).Nodup) :
    (l ++ q).filter (fun x => decide (x ∉ l)) = q := by
  rw [List.filter_append]
  have h1 : l.filter (fun x => decide (x ∉ l)) = [] := by
    rw [List.filter_eq_nil_iff]
    intro x hx
    simpa using hx
  have h2 : q.filter (fun x => decide (x ∉ l)) = q := by
    rw [List.filter_eq_self]
    intro x hx
    have hdis := List.disjoint_of_nodup_append hnd
    simpa using fun hl => hdis hl hx
  rw [h1, h2, List.nil_append]

/-- C10: for a sequence of `addToQueue` calls with pairwise distinct IDs interleaved with
`removeFromQueue` calls on the empty queue, `isNextInQueue x` is true exactly when `x` is the
first of the enqueued IDs not yet dequeued, in enqueue order; it is false for every `x` when
none is left; and `removeFromQueue` on the empty queue leaves it empty. -/
theorem isNextInQueue_fifo (calls : List QueueCall) (hdistinct : (enqueuedIds calls).Nodup)
    (x : String) :
    (((ATM.mk []).runQueue calls).isNextInQueue x = true ↔ (pendingIds calls).head? = some x) ∧
      (pendingIds calls = [] → ((ATM.mk []).runQueue calls).isNextInQueue x = false) ∧
      (ATM.mk []).removeFromQueue = ATM.mk [] := by
  have hsplit := runQueue_split calls (ATM.mk [])
  simp only [List.nil_append] at hsplit
  have hpending : pendingIds calls = ((ATM.mk []).runQueue calls).accessQueue := by
    unfold pendingIds
    rw [hsplit] at hdistinct
    conv_lhs => rw [hsplit]
    exact filter_not_mem_append _ _ hdistinct
  rw [hpending]
  refine ⟨?_, ?_, rfl⟩
  · unfold ATM.isNextInQueue
    cases ((ATM.mk []).runQueue calls).accessQueue with
    | nil => simp
    | cons front rest => simp
  · intro hempty
    unfold ATM.isNextInQueue
    rw [hempty]

/-- Witness of C10: after CUST001 and CUST002 joined, CUST001 left and CUST003 joined,
CUST002 is next. -/
theorem isNextInQueue_fifo_witness :
    ((ATM.mk []).runQueue sampleQueueCalls).isNextInQueue "CUST002" = true ∧
      (pendingIds sampleQueueCalls).head? = some "CUST002" :=
  ⟨((isNextInQueue_fifo sampleQueueCalls (by decide) "CUST002").1).mpr (by decide),
    by decide⟩

/-! ## Account-type tags -/

theorem readBalance_tag (accountType : Char) (htag : accountType ≠ 'S') :
    readBalance accountType = readBalance 'C' := by
  funext c
  have hC : ¬ ('C' = 'S') := by decide
  simp only [readBalance, if_neg htag, if_neg hC]

theorem writeBalance_tag (accountType : Char) (htag : accountType ≠ 'S') :
    writeBalance accountType = writeBalance 'C' := by
  funext v c
  have hC : ¬ ('C' = 'S') := by decide
  simp only [writeBalance, if_neg htag, if_neg hC]

theorem withdraw_tag (db : CustomerDatabase) (customerId : String) (accountType : Char)
    (amount : Double) (htag : accountType ≠ 'S') :
    withdraw db customerId accountType amount = withdraw db customerId 'C' amount := by
  have hC : ¬ ('C' = 'S') := by decide
  simp only [withdraw, readBalance_tag _ htag, writeBalance_tag _ htag, if_neg htag, if_neg hC]

theorem transfer_tag_from (db : CustomerDatabase) (fromId toId : String)
    (fromAccountType toAccountType : Char) (amount : Double) (htag : fromAccountType ≠ 'S') :
    transfer db fromId toId fromAccountType toAccountType amount =
      transfer db fromId toId 'C' toAccountType amount := by
  have hC : ¬ ('C' = 'S') := by decide
  simp only [transfer, readBalance_tag _ htag, writeBalance_tag _ htag, if_neg htag, if_neg hC]

theorem transfer_tag_to (db : CustomerDatabase) (fromId toId : String)
    (fromAccountType toAccountType : Char) (amount : Double) (htag : toAccountType ≠ 'S') :
    transfer db fromId toId fromAccountType toAccountType amount =
      transfer db fromId toId fromAccountType 'C' amount := by
  simp only [transfer, readBalance_tag _ htag, writeBalance_tag _ htag]

/-- C11 does not hold: `withdraw` with the tag 'X' on CUST002 succeeds and takes the 100
from the current account, and `transfer` with the tags 'X' and 'Y' between the two sample
customers succeeds and moves 100 between their current accounts. -/
theorem unknown_tag_counterexample :
    withdraw sampleDb "CUST002" 'X' 100 =
        (.ok false, ⟨[sampleCustomer, { sampleCustomer2 with currentBalance := 24900 }]⟩) ∧
      transfer sampleDb "CUST002" "CUST001" 'X' 'Y' 100 =
        (.ok false, ⟨[{ sampleCustomer with currentBalance := 25100 },
          { sampleCustomer2 with currentBalance := 24900 }]⟩) := by
  exact ⟨by decide, by decide⟩

/-- C11, amended: `withdraw` and `transfer` do not check the account-type tag; every tag
other than 'S' selects the current account, exactly as 'C' does.  The tag is checked by the
menu handlers before they call the ATM: `handleWithdrawal` and `handleTransfer` given a token
whose upper-cased first character is neither 'S' nor 'C' end with a `ValidationException`
and leave the application, database included, as it was. -/
theorem unknown_tag_handling :
    (∀ (db : CustomerDatabase) (customerId : String) (accountType : Char) (amount : Double),
      accountType ≠ 'S' →
      withdraw db customerId accountType amount = withdraw db customerId 'C' amount) ∧
    (∀ (db : CustomerDatabase) (fromId toId : String) (fromAccountType toAccountType : Char)
      (amount : Double),
      transfer db fromId toId fromAccountType toAccountType amount =
        transfer db fromId toId (if fromAccountType = 'S' then 'S' else 'C')
          (if toAccountType = 'S' then 'S' else 'C') amount) ∧
    (∀ (app : BankApplication) (input : String) (amount : Double),
      accountTypeOf input ≠ 'S' → accountTypeOf input ≠ 'C' →
      app.handleWithdrawal input amount =
        (.error (.ValidationException "Invalid account type. Please enter S or C"), app)) ∧
    (∀ (app : BankApplication) (choice : Int) (fromInput toInput recipientId : String)
      (amount : Double), choice = 1 ∨ choice = 2 →
      (accountTypeOf fromInput ≠ 'S' → accountTypeOf fromInput ≠ 'C' →
        app.handleTransfer choice fromInput toInput recipientId amount =
          (.error (.ValidationException "Invalid source account type"), app)) ∧
      (accountTypeOf fromInput = 'S' ∨ accountTypeOf fromInput = 'C' →
        accountTypeOf toInput ≠ 'S' → accountTypeOf toInput ≠ 'C' →
        app.handleTransfer choice fromInput toInput recipientId amount =
          (.error (.ValidationException "Invalid destination account type"), app))) := by
  refine ⟨?_, ?_, ?_, ?_⟩
  · intro db customerId accountType amount htag
    exact withdraw_tag db customerId accountType amount htag
  · intro db fromId toId fromAccountType toAccountType amount
    by_cases hf : fromAccountType = 'S'
    · by_cases ht : toAccountType = 'S'
      · rw [if_pos hf, if_pos ht, hf, ht]
      · rw [if_pos hf, if_neg ht, transfer_tag_to _ _ _ _ _ _ ht, hf]
    · by_cases ht : toAccountType = 'S'
      · rw [if_neg hf, if_pos ht, transfer_tag_from _ _ _ _ _ _ hf, ht]
      · rw [if_neg hf, if_neg ht, transfer_tag_from _ _ _ _ _ _ hf,
          transfer_tag_to _ _ _ _ _ _ ht]
  · intro app input amount hS hC
    simp only [BankApplication.handleWithdrawal, if_pos (And.intro hS hC)]
  · intro app choice fromInput toInput recipientId amount hchoice
    have hopt : ¬ (choice ≠ 1 ∧ choice ≠ 2) := by
      rintro ⟨h1, h2⟩
      rcases hchoice with h | h
      · exact h1 h
      · exact h2 h
    constructor
    · intro hS hC
      simp only [BankApplication.handleTransfer, if_neg hopt, if_pos (And.intro hS hC)]
    · intro hfrom hS hC
      have hsrc : ¬ (accountTypeOf fromInput ≠ 'S' ∧ accountTypeOf fromInput ≠ 'C') := by
        rintro ⟨h1, h2⟩
        rcases hfrom with h | h
        · exact h1 h
        · exact h2 h
      simp only [BankApplication.handleTransfer, if_neg hopt, if_neg hsrc,
        if_pos (And.intro hS hC)]

/-- Witness of C11 as amended: the token "x" is refused by both handlers, and `withdraw` with
the tag 'X' does what it does with 'C'. -/
theorem unknown_tag_handling_witness :
    sampleApp.handleWithdrawal "x" 100 =
        (.error (.ValidationException "Invalid account type. Please enter S or C"), sampleApp) ∧
      sampleApp.handleTransfer 1 "s" "x" "" 100 =
        (.error (.ValidationException "Invalid destination account type"), sampleApp) ∧
      withdraw sampleDb "CUST002" 'X' 100 = withdraw sampleDb "CUST002" 'C' 100 :=
  ⟨unknown_tag_handling.2.2.1 sampleApp "x" 100 (by decide) (by decide),
    (unknown_tag_handling.2.2.2 sampleApp 1 "s" "x" "" 100 (Or.inl rfl)).2
      (Or.inl (by decide)) (by decide) (by decide),
    unknown_tag_handling.1 sampleDb "CUST002" 'X' 100 (by decide)⟩

/-! ## Non-negative balances -/

/-- C12 fails on the code.  A registration, a withdrawal of 9900 from the savings account
and a transfer of 2^-47 from the current to the savings account leave every balance at least
zero, with 50 + 2^-47 in the savings account.  A withdrawal of 1.5 * 2^-47 from it then
succeeds with the service charge and stores -2^-47: the test computes
(balance - amount) - 50 = 0 and the write computes balance - (amount + 50) = -2^-47.  And a
withdrawal whose amount is NaN passes the test `amount <= 0` and stores NaN, which is not at
least zero. -/
theorem negative_balance_reachable :
    ((BankApplication.new.run edgeCalls).db = edgeDb ∧ edgeDb.nonNegative ∧
        (withdraw edgeDb "CUST001" 'S' tinyAndHalf).1 = .ok true ∧
        readBalance 'S' ((withdraw edgeDb "CUST001" 'S' tinyAndHalf).2.slot 0) =
          .finite true (2 ^ 1027) ∧
        ¬ (withdraw edgeDb "CUST001" 'S' tinyAndHalf).2.nonNegative) ∧
      ((withdraw edgeDb "CUST001" 'S' .nan).1 = .ok false ∧
        readBalance 'S' ((withdraw edgeDb "CUST001" 'S' .nan).2.slot 0) = .nan ∧
        ¬ (withdraw edgeDb "CUST001" 'S' .nan).2.nonNegative) := by
  unfold CustomerDatabase.nonNegative
  exact ⟨⟨by decide, by decide, by decide, by decide, by decide⟩,
    by decide, by decide, by decide⟩

/-! ## Whole numbers in `double` -/

theorem bitLenAux_le (fuel k L : Nat) (h : k < 2 ^ L) : bitLenAux fuel k ≤ L := by
  induction fuel generalizing k L with
  | zero => simp [bitLenAux]
  | succ f ih =>
    unfold bitLenAux
    split
    · omega
    · rename_i hk
      cases L with
      | zero =>
        simp only [pow_zero, Nat.lt_one_iff] at h
        exact absurd h hk
      | succ L =>
        have hhalf : k / 2 < 2 ^ L := by
          rw [Nat.div_lt_iff_lt_mul (by decide)]
          rwa [pow_succ] at h
        have := ih (k / 2) L hhalf
        omega

theorem whole_lt_pow (n : Nat) (hn : n < 2 ^ 53) : n * Double.scale < 2 ^ (53 + 1074) := by
  rw [pow_add]
  exact Nat.mul_lt_mul_of_lt_of_le hn (le_refl _) Double.scale_pos

/-- A whole number below 2^53 needs no rounding. -/
theorem roundMag_whole (n : Nat) (hn : n < 2 ^ 53) :
    roundMag (n * Double.scale) = n * Double.scale := by
  unfold roundMag
  split
  · rfl
  · have hlen : bitLen (n * Double.scale) ≤ 53 + 1074 := bitLenAux_le _ _ _ (whole_lt_pow n hn)
    have hshift : bitLen (n * Double.scale) - 53 ≤ 1074 := by omega
    have hdvd : 2 ^ (bitLen (n * Double.scale) - 53) ∣ n * Double.scale :=
      Dvd.dvd.mul_left (Nat.pow_dvd_pow 2 hshift) n
    have hr : n * Double.scale % 2 ^ (bitLen (n * Double.scale) - 53) = 0 :=
      Nat.mod_eq_zero_of_dvd hdvd
    have hhalf : 0 < 2 ^ (bitLen (n * Double.scale) - 53 - 1) := Nat.pow_pos (by decide)
    simp only [hr]
    rw [if_neg (by omega)]
    exact Nat.div_mul_cancel hdvd

theorem ofMag_whole (s : Bool) (n : Nat) (hn : n < 2 ^ 53) :
    Double.ofMag s (n * Double.scale) = .finite s (n * Double.scale) := by
  unfold Double.ofMag
  rw [roundMag_whole n hn, if_neg]
  have h1 := whole_lt_pow n hn
  have h2 : 2 ^ (53 + 1074) ≤ Double.huge := Nat.pow_le_pow_right (by decide) (by decide)
  omega

theorem whole_add (n m : Nat) (h : n + m < 2 ^ 53) :
    Double.whole n + Double.whole m = Double.whole (n + m) := by
  show Double.add (.finite false _) (.finite false _) = _
  simp only [Double.add, if_true, ← Nat.add_mul]
  exact ofMag_whole false _ h

theorem whole_sub_of_le (n m : Nat) (h : m ≤ n) (hn : n < 2 ^ 53) :
    Double.whole n - Double.whole m = Double.whole (n - m) := by
  show Double.add (.finite false _) (Double.neg (.finite false _)) = _
  have hs := Double.scale_pos
  simp only [Double.neg, Double.add, Bool.not_false, Bool.false_eq_true, if_false]
  by_cases heq : n * Double.scale = m * Double.scale
  · have hnm : n = m := Nat.eq_of_mul_eq_mul_right hs heq
    simp [heq, hnm, Double.whole]
  · rw [if_neg heq]
    have hlt : m * Double.scale < n * Double.scale := by
      have := Nat.mul_le_mul_right Double.scale h
      omega
    rw [if_pos hlt, ← Nat.sub_mul]
    exact ofMag_whole false _ (by omega)

theorem whole_sub_of_lt (n m : Nat) (h : n < m) (hm : m < 2 ^ 53) :
    Double.whole n - Double.whole m = .finite true ((m - n) * Double.scale) := by
  show Double.add (.finite false _) (Double.neg (.finite false _)) = _
  have hs := Double.scale_pos
  simp only [Double.neg, Double.add, Bool.not_false, Bool.false_eq_true, if_false]
  have hlt : n * Double.scale < m * Double.scale := Nat.mul_lt_mul_of_pos_right h hs
  rw [if_neg (by omega), if_neg (by omega), ← Nat.sub_mul]
  exact ofMag_whole true _ (by omega)

theorem negative_sub_whole (k m : Nat) (h : k + m < 2 ^ 53) :
    Double.finite true (k * Double.scale) - Double.whole m =
      .finite true ((k + m) * Double.scale) := by
  show Double.add (.finite true _) (Double.neg (.finite false _)) = _
  simp only [Double.neg, Double.add, Bool.not_false, if_true, ← Nat.add_mul]
  exact ofMag_whole true _ h

theorem negative_lt_whole (k m : Nat) (hk : 0 < k) :
    Double.finite true (k * Double.scale) < Double.whole m := by
  rw [Double.whole, Double.lt_iff_key (by simp) (by simp)]
  have h1 : 0 < k * Double.scale := Nat.mul_pos hk Double.scale_pos
  simp only [Double.key, if_true, Bool.false_eq_true, if_false]
  omega

theorem whole_toRat (n : Nat) : (Double.whole n).toRat = n := by
  have hs : (Double.scale : ℚ) ≠ 0 := by
    exact_mod_cast (Nat.pos_iff_ne_zero.mp Double.scale_pos)
  simp only [Double.whole, Double.toRat, Bool.false_eq_true, if_false, Nat.cast_mul]
  field_simp

theorem ofNat_whole (n : Nat) (hn : n < 2 ^ 53) : (OfNat.ofNat n : Double) = Double.whole n :=
  ofMag_whole false n hn

/-- Between whole numbers, a debit that is not below a whole minimum is exact. -/
theorem whole_debit_plain (nb na m : Nat) (hnb : nb < 2 ^ 52) (hna : na < 2 ^ 52)
    (h : ¬ Double.whole nb - Double.whole na < Double.whole m) :
    na ≤ nb ∧ Double.whole nb - Double.whole na = Double.whole (nb - na) := by
  have hle : na ≤ nb := by
    by_contra hlt
    have hlt' : nb < na := by omega
    rw [whole_sub_of_lt nb na hlt' (by omega)] at h
    exact h (negative_lt_whole _ m (by omega))
  exact ⟨hle, whole_sub_of_le nb na hle (by omega)⟩

/-- Between whole numbers, a debit with a charge that passes the test of the code is exact,
and the difference the code stores is the one it tested. -/
theorem whole_debit_charged (nb na p : Nat) (hnb : nb < 2 ^ 52) (hna : na < 2 ^ 52)
    (hp : p < 2 ^ 52)
    (h : ¬ Double.whole nb - Double.whole na - Double.whole p < 0) :
    na + p ≤ nb ∧
      Double.whole nb - (Double.whole na + Double.whole p) = Double.whole (nb - na - p) := by
  have h0 : (0 : Double) = Double.whole 0 := by decide
  have hle : na + p ≤ nb := by
    by_contra hlt
    by_cases hna' : na ≤ nb
    · rw [whole_sub_of_le nb na hna' (by omega),
        whole_sub_of_lt (nb - na) p (by omega) (by omega), h0] at h
      exact h (negative_lt_whole _ 0 (by omega))
    · rw [whole_sub_of_lt nb na (by omega) (by omega),
        negative_sub_whole (na - nb) p (by omega), h0] at h
      exact h (negative_lt_whole _ 0 (by omega))
  refine ⟨hle, ?_⟩
  rw [whole_add na p (by omega), whole_sub_of_le nb (na + p) hle (by omega), Nat.sub_sub]

/-! ## Total of the balances -/

theorem sum_updateAt (g : Customer → ℚ) (cs : List Customer) (i : Nat) (f : Customer → Customer)
    (hi : i < cs.length) :
    ((updateAt cs i f).map g).sum =
      (cs.map g).sum - g (cs.getD i default) + g (f (cs.getD i default)) := by
  induction cs generalizing i with
  | nil => simp at hi
  | cons c cs ih =>
    cases i with
    | zero =>
      simp only [updateAt, List.map_cons, List.sum_cons, List.getD_cons_zero]
      ring
    | succ i =>
      have hi' : i < cs.length := by simpa using hi
      simp only [updateAt, List.map_cons, List.sum_cons, List.getD_cons_succ, ih i hi']
      ring

theorem balance_writeBalance (t : Char) (v : Double) (c : Customer) :
    (writeBalance t v c).savingsBalance.toRat + (writeBalance t v c).currentBalance.toRat =
      c.savingsBalance.toRat + c.currentBalance.toRat - (readBalance t c).toRat + v.toRat := by
  unfold writeBalance readBalance
  split <;> simp only [] <;> ring

/-- The total after a balance is written through a pointer to a used slot. -/
theorem totalBalance_write (db : CustomerDatabase) (i : Nat) (t : Char) (v : Double)
    (hi : i < db.customers.length) :
    (db.write i (writeBalance t v)).totalBalance =
      db.totalBalance - (readBalance t (db.slot i)).toRat + v.toRat := by
  simp only [CustomerDatabase.totalBalance, CustomerDatabase.write, CustomerDatabase.slot,
    sum_updateAt _ _ _ _ hi, balance_writeBalance]
  ring

/-- The balance a reference reads after a write through another reference: the value
written when both address the same account, the old balance otherwise. -/
theorem readBalance_after_write (db : CustomerDatabase) (i j : Nat) (ft tt : Char) (v : Double)
    (hi : i < db.customers.length) :
    readBalance tt ((db.write i (writeBalance ft v)).slot j) = v ∨
      readBalance tt ((db.write i (writeBalance ft v)).slot j) = readBalance tt (db.slot j) := by
  by_cases hij : i = j
  · subst hij
    rw [slot_write_same _ _ _ hi]
    by_cases hsame : tt = 'S' ↔ ft = 'S'
    · exact Or.inl (readBalance_writeBalance_same _ _ _ _ hsame)
    · exact Or.inr (readBalance_writeBalance_other _ _ _ _ hsame)
  · rw [slot_write_other _ _ _ _ hij]
    exact Or.inr rfl

/-- The total after a debit written to slot `i` and a credit then written to slot `j`, when
the value written by the debit, the destination balance and the amount are whole numbers. -/
theorem totalBalance_debit_credit (db : CustomerDatabase) (i j : Nat) (ft tt : Char)
    (nv nt na : Nat) (hi : i < db.customers.length) (hj : j < db.customers.length)
    (hnv : nv < 2 ^ 52) (hnt : nt < 2 ^ 52) (hna : na < 2 ^ 52)
    (hdest : readBalance tt (db.slot j) = Double.whole nt) :
    ((db.write i (writeBalance ft (Double.whole nv))).write j
      (writeBalance tt
        (readBalance tt ((db.write i (writeBalance ft (Double.whole nv))).slot j) +
          Double.whole na))).totalBalance =
      db.totalBalance - (readBalance ft (db.slot i)).toRat + nv + na := by
  have hj1 : j < (db.write i (writeBalance ft (Double.whole nv))).customers.length := by
    rw [write_length]; exact hj
  rw [totalBalance_write _ j _ _ hj1, totalBalance_write db i _ _ hi]
  rcases readBalance_after_write db i j ft tt (Double.whole nv) hi with h | h
  · rw [h, whole_add nv na (by omega), whole_toRat, whole_toRat]
    push_cast
    ring
  · rw [h, hdest, whole_add nt na (by omega), whole_toRat, whole_toRat, whole_toRat]
    push_cast
    ring

/-- C13 does not hold: the transfer of 2^-47 from the current account holding 25000 to the
savings account holding 50 succeeds without charge; the debit 25000 - 2^-47 is rounded back
to 25000 and the credit 50 + 2^-47 is exact, so the total grows by 2^-47. -/
theorem transfer_total_counterexample :
    transfer lowDb "CUST001" "CUST001" 'C' 'S' tiny = (.ok false, edgeDb) ∧
      edgeDb.totalBalance = lowDb.totalBalance + tiny.toRat ∧
      edgeDb.totalBalance ≠ lowDb.totalBalance := by
  have h50 : (50 : Double) = Double.whole 50 := by decide
  have h25000 : (25000 : Double) = Double.whole 25000 := by decide
  have hlow : lowDb.totalBalance = 25050 := by
    simp only [lowDb, CustomerDatabase.totalBalance, List.map_cons, List.map_nil, List.sum_cons,
      List.sum_nil, h50, h25000, whole_toRat]
    norm_num
  have hedge : edgeDb.totalBalance = 25050 + 1 / 2 ^ 47 := by
    simp only [edgeDb, CustomerDatabase.totalBalance, List.map_cons, List.map_nil,
      List.sum_cons, List.sum_nil, h25000, whole_toRat]
    simp only [Double.toRat, Double.scale]
    norm_num
  have htiny : tiny.toRat = 1 / 2 ^ 47 := by
    simp only [tiny, Double.toRat, Double.scale]
    norm_num
  refine ⟨by decide, ?_, ?_⟩
  · rw [hlow, hedge, htiny]
  · rw [hlow, hedge]
    norm_num

/-- C13, amended: for every successful transfer in which the source balance, the
destination balance and the amount are whole numbers below 2^52, whether or not the source
and the destination are the same account, the sum of all savings and current balances
afterwards equals the sum before when no service charge was applied, and the sum before
minus the penalty of the source account type (50 for Savings, 250 otherwise) when the charge
was applied; the charge is applied exactly when the source balance minus the amount is below
the minimum. -/
theorem transfer_totalBalance (db db' : CustomerDatabase) (fromId toId : String)
    (fromAccountType toAccountType : Char) (amount : Double) (i j : Nat) (applied : Bool)
    (hfrom : db.findCustomer fromId = some i) (hto : db.findCustomer toId = some j)
    (hsource : (readBalance fromAccountType (db.slot i)).IsWhole)
    (hdest : (readBalance toAccountType (db.slot j)).IsWhole)
    (hamount : amount.IsWhole)
    (hok : transfer db fromId toId fromAccountType toAccountType amount = (.ok applied, db')) :
    db'.totalBalance =
        db.totalBalance -
          (if applied = true then (if fromAccountType = 'S' then 50 else 250) else 0) ∧
      (applied = true ↔
        readBalance fromAccountType (db.slot i) - amount <
          (if fromAccountType = 'S' then 1000 else 5000)) := by
  have hi := findCustomer_lt hfrom
  have hj := findCustomer_lt hto
  obtain ⟨nb, hnb, hb⟩ := hsource
  obtain ⟨nt, hnt, ht⟩ := hdest
  obtain ⟨na, hna, ha⟩ := hamount
  subst ha
  obtain ⟨m, p, hp, hmin, hpen, hq, hlit⟩ : ∃ m p : Nat, p < 2 ^ 52 ∧
      (if fromAccountType = 'S' then MIN_SAVINGS_BALANCE else MIN_CURRENT_BALANCE) =
        Double.whole m ∧
      (if fromAccountType = 'S' then SAVINGS_PENALTY else CURRENT_PENALTY) = Double.whole p ∧
      (if fromAccountType = 'S' then (50 : ℚ) else 250) = p ∧
      (if fromAccountType = 'S' then (1000 : Double) else 5000) = Double.whole m := by
    by_cases hs : fromAccountType = 'S'
    · refine ⟨1000, 50, by norm_num, ?_, ?_, ?_, ?_⟩
      · rw [if_pos hs]; decide
      · rw [if_pos hs]; decide
      · rw [if_pos hs]; norm_num
      · rw [if_pos hs]; decide
    · refine ⟨5000, 250, by norm_num, ?_, ?_, ?_, ?_⟩
      · rw [if_neg hs]; decide
      · rw [if_neg hs]; decide
      · rw [if_neg hs]; norm_num
      · rw [if_neg hs]; decide
  rw [hlit, hb]
  unfold transfer at hok
  by_cases hamt : Double.whole na ≤ 0
  · simp [hamt] at hok
  · simp only [if_neg hamt, hfrom, hto, hmin, hpen, hb] at hok
    by_cases h1 : Double.whole nb - Double.whole na < Double.whole m
    · rw [if_pos h1] at hok
      by_cases h2 : Double.whole nb - Double.whole na - Double.whole p < 0
      · rw [if_pos h2] at hok
        simp at hok
      · rw [if_neg h2] at hok
        obtain ⟨hle, hv⟩ := whole_debit_charged nb na p hnb hna hp h2
        rw [hv] at hok
        simp only [Prod.mk.injEq, Except.ok.injEq] at hok
        obtain ⟨happ, hdb⟩ := hok
        subst happ hdb
        refine ⟨?_, by simpa using h1⟩
        rw [totalBalance_debit_credit db i j fromAccountType toAccountType (nb - na - p) nt na
          hi hj (by omega) hnt hna ht, hb, whole_toRat, if_pos rfl, hq]
        have hc : ((nb - na - p : ℕ) : ℚ) = (nb : ℚ) - na - p := by
          rw [Nat.sub_sub, Nat.cast_sub hle, Nat.cast_add]
          ring
        rw [hc]
        ring
    · rw [if_neg h1] at hok
      obtain ⟨hle, hv⟩ := whole_debit_plain nb na m hnb hna h1
      rw [hv] at hok
      simp only [Prod.mk.injEq, Except.ok.injEq] at hok
      obtain ⟨happ, hdb⟩ := hok
      subst happ hdb
      refine ⟨?_, by simpa using h1⟩
      rw [totalBalance_debit_credit db i j fromAccountType toAccountType (nb - na) nt na
        hi hj (by omega) hnt hna ht, hb, whole_toRat, Nat.cast_sub hle]
      simp

/-- Witness of C13 as amended: 100 from the savings account of CUST001 (balance 1000) into
that same account costs the service charge of 50 and nothing else. -/
theorem transfer_totalBalance_witness :
    transfer sampleDb "CUST001" "CUST001" 'S' 'S' 100 =
        (.ok true, ⟨[{ sampleCustomer with savingsBalance := 950 }, sampleCustomer2]⟩) ∧
      (CustomerDatabase.mk
          [{ sampleCustomer with savingsBalance := 950 }, sampleCustomer2]).totalBalance =
        sampleDb.totalBalance - 50 := by
  have hrun : transfer sampleDb "CUST001" "CUST001" 'S' 'S' 100 =
      (.ok true, ⟨[{ sampleCustomer with savingsBalance := 950 }, sampleCustomer2]⟩) := by
    decide
  have h := (transfer_totalBalance sampleDb _ "CUST001" "CUST001" 'S' 'S' 100 0 0 true
    (by decide) (by decide) ⟨1000, by norm_num, by decide⟩ ⟨1000, by norm_num, by decide⟩
    ⟨100, by norm_num, by decide⟩ hrun).1
  exact ⟨hrun, by simpa using h⟩

end Bank
